import Mathlib

/-!
# Reservation scheduling core of the restaurant-management backend

Shallow embedding of `src/controllers/reservationController.js` together with the
schema of `src/models/Reservation.js` and `src/models/Table.js`, followed by the
handlers of `src/controllers/tableController.js` that write the table registry and
the handlers of `src/controllers/orderController.js` that write orders.

Modelling conventions.

* A Mongo `ObjectId` is a natural number; the collection is a list of documents
  in insertion order and the database hands out ids from a counter.
* An instant is the integer millisecond value of a `moment`/`Date`.  A time field
  of a request body is `none` when the field is absent (falsy) and `some t` when
  it is a date string that `moment` parses to the instant `t`.
* `numberOfGuests` is an integer; `none` is an absent field.  JavaScript
  truthiness of a number (`!n`, `n || d`) is `n ≠ 0`.
* A status in a request body is an arbitrary string or absent; truthiness of a
  string is `s ≠ ""`.
* Every handler maps the database before the request to the database after it
  and the response.  `throw` after `res.status(c)` is `Outcome.fail`.
* `createdAt`/`updatedAt` are maintained by Mongoose, not by the code of this
  repository, and are not part of the model.
-/

namespace Restaurant

abbrev ObjectId := Nat

abbrev Instant := Int

/-- Document of `src/models/Table.js`. -/
structure Table where
  _id : ObjectId
  tableNumber : Int
  capacity : Int
  isAvailable : Bool
  location : Option String
  description : Option String
deriving DecidableEq, Repr

/-- Document of `src/models/Reservation.js`. -/
structure Reservation where
  _id : ObjectId
  user : ObjectId
  table : ObjectId
  startTime : Instant
  endTime : Instant
  numberOfGuests : Int
  status : String
  notes : Option String
deriving DecidableEq, Repr

/-- The list `Reservation.schema.path('status').enumValues`. -/
def enumValues : List String :=
  ["Pending", "Confirmed", "Cancelled", "Completed", "No-Show"]

/-- The list `['Pending', 'Confirmed', 'Completed']` of the `$in` clause of both overlap queries. -/
def activeStatuses : List String :=
  ["Pending", "Confirmed", "Completed"]

/-- The list `['Pending', 'Confirmed']` used by the availability trigger of `updateReservation`. -/
def pendingOrConfirmed : List String :=
  ["Pending", "Confirmed"]

/-- Errors raised by the handlers; `validationError` is the rejection of `save()` by the schema
validators or the `pre('save')` hook. -/
inductive Err where
  | missingFields
  | invalidInterval
  | pastReservation
  | pastReservationPending
  | tableNotFound
  | capacityExceeded
  | slotConflict
  | invalidStatus
  | notFound
  | forbidden
  | validationError
deriving DecidableEq, Repr

/-- The value passed to `res.status` before the `throw`; `save()` rejections set none. -/
def Err.code : Err → Option Nat
  | .missingFields => some 400
  | .invalidInterval => some 400
  | .pastReservation => some 400
  | .pastReservationPending => some 400
  | .tableNotFound => some 404
  | .capacityExceeded => some 400
  | .slotConflict => some 409
  | .invalidStatus => some 400
  | .notFound => some 404
  | .forbidden => some 403
  | .validationError => none

/-- Response of a handler. -/
inductive Outcome where
  | created (r : Reservation)
  | ok (r : Reservation)
  | removed
  | fail (e : Err)
deriving DecidableEq, Repr

/-- HTTP status of a response, when the handler sets one. -/
def Outcome.code : Outcome → Option Nat
  | .created _ => some 201
  | .ok _ => some 200
  | .removed => some 200
  | .fail e => e.code

/-- The reservation collection and the id the database gives to the next inserted document. -/
structure Db where
  reservations : List Reservation
  fresh : ObjectId
deriving DecidableEq, Repr

/-- The empty collection. -/
def Db.empty : Db := ⟨[], 0⟩

/-- Body of `POST /api/reservations`. -/
structure CreateBody where
  table : Option ObjectId
  startTime : Option Instant
  endTime : Option Instant
  numberOfGuests : Option Int
  notes : Option String
deriving DecidableEq, Repr

/-- Body of `PUT /api/reservations/:id`. -/
structure UpdateBody where
  table : Option ObjectId
  startTime : Option Instant
  endTime : Option Instant
  numberOfGuests : Option Int
  status : Option String
  notes : Option String
deriving DecidableEq, Repr

/-- JavaScript truthiness of an optional number: present and non-zero. -/
def truthyNum : Option Int → Option Int
  | some n => if n = 0 then none else some n
  | none => none

/-- JavaScript truthiness of an optional string: present and non-empty. -/
def truthyStr : Option String → Option String
  | some s => if s = "" then none else some s
  | none => none

/-- The expression `status && list.includes(status)`. -/
def includesStatus (list : List String) (status : Option String) : Bool :=
  match truthyStr status with
  | some s => list.contains s
  | none => false

/-- Query `Table.findById(id)`. -/
def Table.findById (tables : List Table) (id : ObjectId) : Option Table :=
  tables.find? (fun t => t._id == id)

/-- Query `Reservation.findById(id)`. -/
def Reservation.findById (db : Db) (id : ObjectId) : Option Reservation :=
  db.reservations.find? (fun r => r._id == id)

/-- The overlap query of `createReservation` (lines 47-58):
`{ table, startTime: {$lt: end}, endTime: {$gt: start}, status: {$in: [...]} }`. -/
def overlappingReservations (db : Db) (table : ObjectId) (start stop : Instant) :
    List Reservation :=
  db.reservations.filter (fun r =>
    r.table == table && decide (r.startTime < stop) && decide (r.endTime > start)
      && activeStatuses.contains r.status)

/-- The overlap query of `updateReservation` (lines 194-204), with `_id: {$ne: self}`. -/
def overlappingReservationsExcept (db : Db) (table self : ObjectId) (start stop : Instant) :
    List Reservation :=
  db.reservations.filter (fun r =>
    r.table == table && r._id != self && decide (r.startTime < stop)
      && decide (r.endTime > start) && activeStatuses.contains r.status)

/-- Schema validators (`numberOfGuests.min`, `status.enum`) and the `pre('save')` hook
(`startTime >= endTime` is rejected) run by `save()`. -/
def Reservation.validate (r : Reservation) : Bool :=
  decide (1 ≤ r.numberOfGuests) && enumValues.contains r.status
    && !decide (r.startTime ≥ r.endTime)

/-- Insertion of a new document by `save()`. -/
def Db.insert (db : Db) (r : Reservation) : Db :=
  ⟨db.reservations ++ [r], db.fresh + 1⟩

/-- Write-back of a loaded document by `save()`: the document with that `_id` is replaced. -/
def Db.replace (db : Db) (r : Reservation) : Db :=
  ⟨db.reservations.map (fun x => if x._id = r._id then r else x), db.fresh⟩

/-- Removal by `deleteOne()`. -/
def Db.remove (db : Db) (id : ObjectId) : Db :=
  ⟨db.reservations.filter (fun x => x._id != id), db.fresh⟩

/-- The document built at lines 66-74, with the `_id` the database assigns on insertion. -/
def newReservation (db : Db) (user table : ObjectId) (start stop : Instant)
    (numberOfGuests : Int) (notes : Option String) : Reservation :=
  { _id := db.fresh, user := user, table := table, startTime := start, endTime := stop,
    numberOfGuests := numberOfGuests, status := "Pending", notes := notes }

/-- Handler `createReservation` (lines 9-78); `now` is `moment()`, `user` is `req.user._id`. -/
def createReservation (now : Instant) (user : ObjectId) (tables : List Table)
    (body : CreateBody) (db : Db) : Db × Outcome :=
  match body.table, body.startTime, body.endTime, truthyNum body.numberOfGuests with
  | some table, some start, some stop, some numberOfGuests =>
    if start ≥ stop then (db, .fail .invalidInterval)
    else if start < now then (db, .fail .pastReservation)
    else
      match Table.findById tables table with
      | none => (db, .fail .tableNotFound)
      | some selectedTable =>
        if numberOfGuests > selectedTable.capacity then (db, .fail .capacityExceeded)
        else if (overlappingReservations db selectedTable._id start stop).length > 0 then
          (db, .fail .slotConflict)
        else
          let reservation :=
            newReservation db user selectedTable._id start stop numberOfGuests body.notes
          if reservation.validate then (db.insert reservation, .created reservation)
          else (db, .fail .validationError)
  | _, _, _, _ => (db, .fail .missingFields)

/-- Handler `updateReservationStatus` (lines 128-145). -/
def updateReservationStatus (id : ObjectId) (status : Option String) (db : Db) : Db × Outcome :=
  match Reservation.findById db id with
  | some reservation =>
    if includesStatus enumValues status then
      let reservation := { reservation with status := status.getD reservation.status }
      if reservation.validate then (db.replace reservation, .ok reservation)
      else (db, .fail .validationError)
    else (db, .fail .invalidStatus)
  | none => (db, .fail .notFound)

/-- The assignments of lines 213-218 followed by `save()`. -/
def applyUpdate (db : Db) (reservation : Reservation) (body : UpdateBody)
    (start stop : Instant) : Db × Outcome :=
  let updated : Reservation :=
    { reservation with
      table := body.table.getD reservation.table
      startTime := start
      endTime := stop
      numberOfGuests := (truthyNum body.numberOfGuests).getD reservation.numberOfGuests
      status := if includesStatus enumValues body.status then body.status.getD reservation.status
        else reservation.status
      notes := match body.notes with
        | some n => some n
        | none => reservation.notes }
  if updated.validate then (db.replace updated, .ok updated)
  else (db, .fail .validationError)

/-- The block of lines 174-211: capacity re-validation and, nested in it, the availability
check. -/
def checkTableAndSlot (tables : List Table) (db : Db) (reservation : Reservation)
    (body : UpdateBody) (start stop : Instant) : Option Err :=
  if body.table.isSome || (truthyNum body.numberOfGuests).isSome then
    let newTableId := body.table.getD reservation.table
    let newNumGuests := (truthyNum body.numberOfGuests).getD reservation.numberOfGuests
    match Table.findById tables newTableId with
    | none => some .tableNotFound
    | some selectedTable =>
      if newNumGuests > selectedTable.capacity then some .capacityExceeded
      else if newTableId != reservation.table
          || (body.startTime.isSome || body.endTime.isSome)
          || (includesStatus pendingOrConfirmed body.status
              && !pendingOrConfirmed.contains reservation.status) then
        if (overlappingReservationsExcept db newTableId reservation._id start stop).length > 0
        then some .slotConflict
        else none
      else none
  else none

/-- Handler `updateReservation` (lines 151-227). -/
def updateReservation (now : Instant) (tables : List Table) (id : ObjectId)
    (body : UpdateBody) (db : Db) : Db × Outcome :=
  match Reservation.findById db id with
  | some reservation =>
    let start := body.startTime.getD reservation.startTime
    let stop := body.endTime.getD reservation.endTime
    if (body.startTime.isSome || body.endTime.isSome) && decide (start ≥ stop) then
      (db, .fail .invalidInterval)
    else if (body.startTime.isSome || body.endTime.isSome) && decide (start < now)
        && reservation.status == "Pending" then
      (db, .fail .pastReservationPending)
    else
      match checkTableAndSlot tables db reservation body start stop with
      | some e => (db, .fail e)
      | none => applyUpdate db reservation body start stop
  | none => (db, .fail .notFound)

/-- Handler `deleteReservation` (lines 233-243). -/
def deleteReservation (id : ObjectId) (db : Db) : Db × Outcome :=
  match Reservation.findById db id with
  | some reservation => (db.remove reservation._id, .removed)
  | none => (db, .fail .notFound)

/-- One request to the reservation routes. -/
inductive Op where
  | create (now : Instant) (user : ObjectId) (body : CreateBody)
  | update (now : Instant) (id : ObjectId) (body : UpdateBody)
  | setStatus (id : ObjectId) (status : Option String)
  | delete (id : ObjectId)
deriving DecidableEq, Repr

/-- The handler serving a request. -/
def handle (tables : List Table) (db : Db) : Op → Db × Outcome
  | .create now user body => createReservation now user tables body db
  | .update now id body => updateReservation now tables id body db
  | .setStatus id status => updateReservationStatus id status db
  | .delete id => deleteReservation id db

/-- The database after serving the requests one after the other, starting from `db`. -/
def runFrom (tables : List Table) (db : Db) (ops : List Op) : Db :=
  ops.foldl (fun d op => (handle tables d op).1) db

/-- The database after serving the requests one after the other from the empty collection. -/
def run (tables : List Table) (ops : List Op) : Db :=
  runFrom tables Db.empty ops

/-- The list `enum: ['customer', 'staff', 'admin']` of the `role` path of `src/models/User.js`;
the role of an authenticated caller is the one `getSignedJwtToken` put in the token. -/
def userRoles : List String :=
  ["customer", "staff", "admin"]

/-- The object `req.user` attached by `protect` (lines 15-20 of `authMiddleware.js`): the id of
the token and the role of the token. -/
structure Caller where
  _id : ObjectId
  role : String
deriving DecidableEq, Repr

/-- Handler `getReservationById` (lines 107-123).  The populated `user` and `table` details of
the response body are not part of the model; `reservation.user._id` is the stored reference. -/
def getReservationById (caller : Caller) (id : ObjectId) (db : Db) : Outcome :=
  match Reservation.findById db id with
  | some reservation =>
    if caller.role == "customer" && reservation.user != caller._id then .fail .forbidden
    else .ok reservation
  | none => .fail .notFound

/-- Every stored document satisfies the schema validators and the `pre('save')` hook. -/
def Db.Valid (db : Db) : Prop :=
  ∀ r ∈ db.reservations, r.validate = true

/-- Every stored reservation names a table of the registry that seats its party. -/
def Db.Seated (tables : List Table) (db : Db) : Prop :=
  ∀ r ∈ db.reservations, ∃ t, Table.findById tables r.table = some t ∧
    r.numberOfGuests ≤ t.capacity

/-- The ids of the stored documents are pairwise distinct and below the id counter. -/
def Db.Distinct (db : Db) : Prop :=
  (db.reservations.map Reservation._id).Nodup ∧ ∀ r ∈ db.reservations, r._id < db.fresh

/-! ### Sample data

Times of day are written as the integers `hhmm` (`1030` is 10:30), which keeps their order. -/

/-- A registry with one table, table number 1, capacity 4. -/
def sampleTables : List Table := [⟨1, 1, 4, true, none, none⟩]

/-- Body of a booking of table 1 for the given interval and party size. -/
def booking (start stop : Instant) (guests : Int) : CreateBody :=
  ⟨some 1, some start, some stop, some guests, none⟩

/-- A stored reservation of table 1 by user 7. -/
def stored (id : ObjectId) (start stop : Instant) (status : String) : Reservation :=
  ⟨id, 7, 1, start, stop, 2, status, none⟩

/-- Body of an update that gives only a status. -/
def statusOnly (status : String) : UpdateBody :=
  ⟨none, none, none, none, some status, none⟩

/-- Body of an update that gives only the two times. -/
def timesOnly (start stop : Instant) : UpdateBody :=
  ⟨none, some start, some stop, none, none, none⟩

/-- Body of an update that gives only notes. -/
def notesOnly (notes : String) : UpdateBody :=
  ⟨none, none, none, none, none, some notes⟩

/-- Book 10:00-11:00, cancel it, book the same slot again, then set the first back to
`Pending` through the status route. -/
def reactivationOps : List Op :=
  [.create 900 7 (booking 1000 1100 2), .setStatus 0 (some "Cancelled"),
   .create 900 8 (booking 1000 1100 2), .setStatus 0 (some "Pending")]

/-- Half-open interval overlap of two stored reservations. -/
def Reservation.overlaps (a b : Reservation) : Prop :=
  a.startTime < b.endTime ∧ b.startTime < a.endTime

instance (a b : Reservation) : Decidable (a.overlaps b) := by
  unfold Reservation.overlaps; infer_instance

/-- A reservation whose status is in the active set `{Pending, Confirmed, Completed}`. -/
def Reservation.active (r : Reservation) : Prop :=
  r.status ∈ activeStatuses

instance (r : Reservation) : Decidable r.active := by
  unfold Reservation.active; infer_instance

/-! ### Interleaved create requests

`createReservation` is an `async` function: between `await Reservation.find(...)` (line 47) and
`await reservation.save()` (line 76) other requests may run.  The handler is split at that point
into the part that reads the collection and the part that writes it. -/

/-- The document of lines 66-74 before it is saved. -/
structure Draft where
  user : ObjectId
  table : ObjectId
  startTime : Instant
  endTime : Instant
  numberOfGuests : Int
  notes : Option String
deriving DecidableEq, Repr

/-- Lines 10-74 of `createReservation`: the checks and the two queries, on the collection as it
is when the overlap query runs.  The result is the error thrown or the document to save. -/
def createCheck (now : Instant) (user : ObjectId) (tables : List Table) (body : CreateBody)
    (db : Db) : Except Err Draft :=
  match body.table, body.startTime, body.endTime, truthyNum body.numberOfGuests with
  | some table, some start, some stop, some numberOfGuests =>
    if start ≥ stop then .error .invalidInterval
    else if start < now then .error .pastReservation
    else
      match Table.findById tables table with
      | none => .error .tableNotFound
      | some selectedTable =>
        if numberOfGuests > selectedTable.capacity then .error .capacityExceeded
        else if (overlappingReservations db selectedTable._id start stop).length > 0 then
          .error .slotConflict
        else .ok ⟨user, selectedTable._id, start, stop, numberOfGuests, body.notes⟩
  | _, _, _, _ => .error .missingFields

/-- Lines 76-77 of `createReservation`: `save()` on the collection as it is when the write
arrives, and the response. -/
def createSave (db : Db) (d : Draft) : Db × Outcome :=
  let reservation :=
    newReservation db d.user d.table d.startTime d.endTime d.numberOfGuests d.notes
  if reservation.validate then (db.insert reservation, .created reservation)
  else (db, .fail .validationError)

/-- Progress of one create request. -/
inductive Phase where
  | received (user : ObjectId) (body : CreateBody)
  | checked (d : Draft)
  | done (o : Outcome)
deriving DecidableEq, Repr

/-- The collection and the create requests in flight. -/
structure Sys where
  db : Db
  calls : List Phase
deriving DecidableEq, Repr

/-- One step of request `i`: a received request runs up to the result of its overlap query, a
checked request performs its `save()`, a finished request stays as it is. -/
def Sys.step (now : Instant) (tables : List Table) (s : Sys) (i : Nat) : Sys :=
  match s.calls.get? i with
  | some (.received user body) =>
    match createCheck now user tables body s.db with
    | .error e => ⟨s.db, s.calls.set i (.done (.fail e))⟩
    | .ok d => ⟨s.db, s.calls.set i (.checked d)⟩
  | some (.checked d) => ⟨(createSave s.db d).1, s.calls.set i (.done (createSave s.db d).2)⟩
  | _ => s

/-- The system after the steps of a schedule, each entry naming the request that moves next. -/
def Sys.exec (now : Instant) (tables : List Table) (s : Sys) (schedule : List Nat) : Sys :=
  schedule.foldl (Sys.step now tables) s

/-- Two requests for table 1, 10:00-11:00, by users 7 and 8, on the empty collection. -/
def twoBookings : Sys :=
  ⟨Db.empty, [.received 7 (booking 1000 1100 2), .received 8 (booking 1000 1100 2)]⟩

/-! ### Table registry (`src/controllers/tableController.js`)

The handlers keep table numbers apart by their own `findOne` checks; the unique index declared in
`Table.js` is a second barrier in the database and is not needed for, nor part of, the model. -/

/-- Errors raised by the table handlers. -/
inductive TableErr where
  | missingFields
  | numberExists
  | numberExistsOther
  | notFound
  | validationError
deriving DecidableEq, Repr

/-- The value passed to `res.status` before the `throw`; `save()` rejections set none. -/
def TableErr.code : TableErr → Option Nat
  | .missingFields => some 400
  | .numberExists => some 400
  | .numberExistsOther => some 400
  | .notFound => some 404
  | .validationError => none

/-- Response of a table handler. -/
inductive TableOutcome where
  | created (t : Table)
  | ok (t : Table)
  | removed
  | fail (e : TableErr)
deriving DecidableEq, Repr

/-- HTTP status of a response, when the handler sets one. -/
def TableOutcome.code : TableOutcome → Option Nat
  | .created _ => some 201
  | .ok _ => some 200
  | .removed => some 200
  | .fail e => e.code

/-- The table collection and the id the database gives to the next inserted document. -/
structure TableDb where
  tables : List Table
  fresh : ObjectId
deriving DecidableEq, Repr

/-- The empty registry. -/
def TableDb.empty : TableDb := ⟨[], 0⟩

/-- Body of `POST /api/tables` and `PUT /api/tables/:id`; `none` is `undefined`. -/
structure TableBody where
  tableNumber : Option Int
  capacity : Option Int
  isAvailable : Option Bool
  location : Option String
  description : Option String
deriving DecidableEq, Repr

/-- Query `Table.findOne({ tableNumber })`. -/
def Table.findOne (db : TableDb) (tableNumber : Int) : Option Table :=
  db.tables.find? (fun t => t.tableNumber == tableNumber)

/-- Schema validator `capacity.min` run by `create()` and `save()`; the required fields are
present by construction. -/
def Table.validate (t : Table) : Bool :=
  decide (1 ≤ t.capacity)

/-- Write-back of a loaded table by `save()`. -/
def TableDb.replace (db : TableDb) (t : Table) : TableDb :=
  ⟨db.tables.map (fun x => if x._id = t._id then t else x), db.fresh⟩

/-- Handler `createTable` (lines 7-32). -/
def createTable (body : TableBody) (db : TableDb) : TableDb × TableOutcome :=
  match truthyNum body.tableNumber, truthyNum body.capacity with
  | some tableNumber, some capacity =>
    match Table.findOne db tableNumber with
    | some _ => (db, .fail .numberExists)
    | none =>
      let table : Table :=
        { _id := db.fresh, tableNumber := tableNumber, capacity := capacity,
          isAvailable := body.isAvailable.getD true, location := body.location,
          description := body.description }
      if table.validate then (⟨db.tables ++ [table], db.fresh + 1⟩, .created table)
      else (db, .fail .validationError)
  | _, _ => (db, .fail .missingFields)

/-- Lines 66-73 of `updateTable`: the duplicate check and the assignment of the new number. -/
def renumber (db : TableDb) (id : ObjectId) (table : Table) (tableNumber : Option Int) :
    Except TableErr Table :=
  match tableNumber with
  | some n =>
    if n ≠ table.tableNumber then
      match Table.findOne db n with
      | some tableExists =>
        if tableExists._id ≠ id then .error .numberExistsOther
        else .ok { table with tableNumber := n }
      | none => .ok { table with tableNumber := n }
    else .ok table
  | none => .ok table

/-- Handler `updateTable` (lines 59-86). -/
def updateTable (id : ObjectId) (body : TableBody) (db : TableDb) : TableDb × TableOutcome :=
  match Table.findById db.tables id with
  | some table =>
    match renumber db id table body.tableNumber with
    | .error e => (db, .fail e)
    | .ok table =>
      let updated : Table :=
        { table with
          capacity := body.capacity.getD table.capacity
          isAvailable := body.isAvailable.getD table.isAvailable
          location := match body.location with
            | some l => some l
            | none => table.location
          description := match body.description with
            | some d => some d
            | none => table.description }
      if updated.validate then (db.replace updated, .ok updated)
      else (db, .fail .validationError)
  | none => (db, .fail .notFound)

/-- Handler `deleteTable` (lines 91-101). -/
def deleteTable (id : ObjectId) (db : TableDb) : TableDb × TableOutcome :=
  match Table.findById db.tables id with
  | some table => (⟨db.tables.filter (fun x => x._id != table._id), db.fresh⟩, .removed)
  | none => (db, .fail .notFound)

/-- One request to the private table routes. -/
inductive TableOp where
  | create (body : TableBody)
  | update (id : ObjectId) (body : TableBody)
  | delete (id : ObjectId)
deriving DecidableEq, Repr

/-- The handler serving a table request. -/
def handleTable (db : TableDb) : TableOp → TableDb × TableOutcome
  | .create body => createTable body db
  | .update id body => updateTable id body db
  | .delete id => deleteTable id db

/-- The registry after serving the requests one after the other, starting from `db`. -/
def runTablesFrom (db : TableDb) (ops : List TableOp) : TableDb :=
  ops.foldl (fun d op => (handleTable d op).1) db

/-- The registry after serving the requests one after the other from the empty registry. -/
def runTables (ops : List TableOp) : TableDb :=
  runTablesFrom TableDb.empty ops

/-- Ids are pairwise distinct and below the counter, and table numbers are pairwise distinct. -/
def TableDb.Wf (db : TableDb) : Prop :=
  (db.tables.map Table._id).Nodup ∧ (∀ t ∈ db.tables, t._id < db.fresh) ∧
    (db.tables.map Table.tableNumber).Nodup

/-- Body that gives a table number and a capacity. -/
def tableBody (tableNumber capacity : Int) : TableBody :=
  ⟨some tableNumber, some capacity, none, none, none⟩

/-- Body that gives only a table number. -/
def numberOnly (tableNumber : Int) : TableBody :=
  ⟨some tableNumber, none, none, none, none⟩

/-! ### Orders (`src/controllers/orderController.js`, `src/models/Order.js`)

`createOrder` computes with JavaScript numbers.  Their arithmetic is not code of this
repository, so the handlers take it as a parameter `A : Arith Num` and make no assumption on it:
`Num` stands for the numbers, `A.add` and `A.mul` for `+` and `*` on two numbers (IEEE doubles,
rounding included), `A.text` for the conversion of a number to a string, `A.read` for the cast of
a string to a `Number` path by Mongoose.  A `deliveryFee` in a request body is the raw JSON
value: absent, a number or a string.  `*` converts its operands to numbers, so a quantity is
taken as the number it denotes. -/

/-- The arithmetic of JavaScript numbers that `createOrder` uses. -/
structure Arith (Num : Type) where
  zero : Num
  add : Num → Num → Num
  mul : Num → Num → Num
  truthy : Num → Bool
  text : Num → String
  read : String → Option Num

/-- A JSON value that is a number or a string. -/
inductive JsValue (Num : Type) where
  | num (x : Num)
  | str (s : String)
deriving DecidableEq, Repr

/-- Document of `src/models/MenuItem.js` (the fields `createOrder` reads). -/
structure MenuItem (Num : Type) where
  _id : ObjectId
  name : String
  price : Num
  isAvailable : Bool
  imageUrl : String
deriving DecidableEq, Repr

/-- An element of `req.body.orderItems`; `name` and `price` are what the client claims. -/
structure OrderItemBody (Num : Type) where
  menuItem : ObjectId
  qty : Num
  name : Option String
  price : Option Num
deriving DecidableEq, Repr

/-- A line item of a stored order. -/
structure OrderItem (Num : Type) where
  name : String
  qty : Num
  image : String
  price : Num
  menuItem : ObjectId
deriving DecidableEq, Repr

/-- The sub-document `deliveryAddress`. -/
structure Address where
  street : Option String
  city : Option String
  postalCode : Option String
  country : Option String
deriving DecidableEq, Repr

/-- Document of `src/models/Order.js`. -/
structure Order (Num : Type) where
  _id : ObjectId
  user : ObjectId
  orderItems : List (OrderItem Num)
  totalPrice : Num
  status : String
  paymentMethod : Option String
  isPaid : Bool
  paidAt : Option Instant
  deliveryAddress : Address
  deliveryFee : Num
  isDelivered : Bool
  deliveredAt : Option Instant
deriving DecidableEq, Repr

/-- The list `enum` of the `status` path of the order schema. -/
def orderStatuses : List String :=
  ["Pending", "Confirmed", "Preparing", "Ready", "Out for Delivery", "Delivered", "Cancelled"]

/-- The list `enum` of the `paymentMethod` path of the order schema. -/
def paymentMethods : List String :=
  ["Cash", "Card", "Online Payment"]

/-- Errors raised by the order handlers; `typeError` is the `TypeError` of iterating an absent
`orderItems`, `validationError` the rejection of `save()` (validators and casts). -/
inductive OrderErr where
  | noOrderItems
  | menuItemNotFound
  | notAvailable
  | notFound
  | typeError
  | validationError
deriving DecidableEq, Repr

/-- The value passed to `res.status` before the `throw`, when there is one. -/
def OrderErr.code : OrderErr → Option Nat
  | .noOrderItems => some 400
  | .menuItemNotFound => some 404
  | .notAvailable => some 400
  | .notFound => some 404
  | .typeError => none
  | .validationError => none

/-- Response of an order handler. -/
inductive OrderOutcome (Num : Type) where
  | created (o : Order Num)
  | ok (o : Order Num)
  | fail (e : OrderErr)
deriving DecidableEq, Repr

/-- HTTP status of a response, when the handler sets one. -/
def OrderOutcome.code {Num : Type} : OrderOutcome Num → Option Nat
  | .created _ => some 201
  | .ok _ => some 200
  | .fail e => e.code

/-- The order collection and the id the database gives to the next inserted document. -/
structure OrderDb (Num : Type) where
  orders : List (Order Num)
  fresh : ObjectId
deriving DecidableEq, Repr

/-- The empty order collection. -/
def OrderDb.empty {Num : Type} : OrderDb Num := ⟨[], 0⟩

/-- Body of `POST /api/orders`. -/
structure OrderBody (Num : Type) where
  orderItems : Option (List (OrderItemBody Num))
  paymentMethod : Option String
  deliveryAddress : Option Address
  deliveryFee : Option (JsValue Num)
deriving DecidableEq, Repr

/-- Query `MenuItem.findById(id)`. -/
def MenuItem.findById {Num : Type} (menu : List (MenuItem Num)) (id : ObjectId) :
    Option (MenuItem Num) :=
  menu.find? (fun m => m._id == id)

/-- Query `Order.findById(id)`. -/
def Order.findById {Num : Type} (db : OrderDb Num) (id : ObjectId) : Option (Order Num) :=
  db.orders.find? (fun o => o._id == id)

/-- The expression `deliveryFee || 0` (lines 48 and 49): a falsy fee (absent, the number 0 or
`NaN`, the empty string) gives the number 0, any other fee gives itself. -/
def feeOrZero {Num : Type} (A : Arith Num) : Option (JsValue Num) → JsValue Num
  | some (.num f) => if A.truthy f then .num f else .num A.zero
  | some (.str s) => if s = "" then .num A.zero else .str s
  | none => .num A.zero

/-- The expression `total + x` of line 49, `total` being a number: the sum when `x` is a number,
the concatenation of the text of `total` and `x` when `x` is a string. -/
def addTo {Num : Type} (A : Arith Num) (total : Num) : JsValue Num → JsValue Num
  | .num f => .num (A.add total f)
  | .str s => .str (A.text total ++ s)

/-- The cast of a value assigned to a `Number` path of the order schema: a number is kept, a
string is read as a number, and `none` is the cast error that makes `save()` reject. -/
def castNumber {Num : Type} (A : Arith Num) : JsValue Num → Option Num
  | .num x => some x
  | .str s => A.read s

/-- The loop of lines 16-41 of `createOrder`, started with the running `total` and the line
items validated so far. -/
def validateItems {Num : Type} (A : Arith Num) (menu : List (MenuItem Num)) :
    List (OrderItemBody Num) → Num → List (OrderItem Num) →
      Except OrderErr (Num × List (OrderItem Num))
  | [], total, validatedOrderItems => .ok (total, validatedOrderItems)
  | item :: rest, total, validatedOrderItems =>
    match MenuItem.findById menu item.menuItem with
    | none => .error .menuItemNotFound
    | some menuItem =>
      if !menuItem.isAvailable then .error .notAvailable
      else
        validateItems A menu rest (A.add total (A.mul menuItem.price item.qty))
          (validatedOrderItems ++
            [⟨menuItem.name, item.qty, menuItem.imageUrl, menuItem.price, menuItem._id⟩])

/-- Schema validators of the order run by `save()`: `paymentMethod` required and in its enum,
`status` in its enum, every line item with a (non-empty) name. -/
def Order.validate {Num : Type} (o : Order Num) : Bool :=
  (match o.paymentMethod with
    | some m => paymentMethods.contains m
    | none => false)
  && orderStatuses.contains o.status && o.orderItems.all (fun i => i.name != "")

/-- Handler `createOrder` (lines 8-55); `user` is `req.user._id`. -/
def createOrder {Num : Type} (A : Arith Num) (user : ObjectId) (menu : List (MenuItem Num))
    (body : OrderBody Num) (db : OrderDb Num) : OrderDb Num × OrderOutcome Num :=
  match body.orderItems with
  | some [] => (db, .fail .noOrderItems)
  | none => (db, .fail .typeError)
  | some orderItems =>
    match validateItems A menu orderItems A.zero [] with
    | .error e => (db, .fail e)
    | .ok (total, validatedOrderItems) =>
      match castNumber A (feeOrZero A body.deliveryFee),
          castNumber A (addTo A total (feeOrZero A body.deliveryFee)) with
      | some deliveryFee, some totalPrice =>
        let order : Order Num :=
          { _id := db.fresh, user := user, orderItems := validatedOrderItems,
            totalPrice := totalPrice, status := "Pending",
            paymentMethod := body.paymentMethod, isPaid := false, paidAt := none,
            deliveryAddress := body.deliveryAddress.getD ⟨none, none, none, none⟩,
            deliveryFee := deliveryFee, isDelivered := false, deliveredAt := none }
        if order.validate then (⟨db.orders ++ [order], db.fresh + 1⟩, .created order)
        else (db, .fail .validationError)
      | _, _ => (db, .fail .validationError)

/-- The value of `isPaid` or `isDelivered` in a request body: absent, a boolean, or a value of
another type. -/
inductive JsFlag where
  | undefined
  | bool (b : Bool)
  | other
deriving DecidableEq, Repr

/-- Body of `PUT /api/orders/:id`. -/
structure OrderStatusBody where
  status : Option String
  isPaid : JsFlag
  isDelivered : JsFlag
deriving DecidableEq, Repr

/-- Lines 93-95 of `updateOrderStatus`. -/
def setOrderStatus {Num : Type} (order : Order Num) (status : Option String) : Order Num :=
  if includesStatus orderStatuses status then { order with status := status.getD order.status }
  else order

/-- Lines 98-105 of `updateOrderStatus`; `now` is `new Date()`. -/
def setPaid {Num : Type} (now : Instant) (order : Order Num) : JsFlag → Order Num
  | .bool isPaid =>
    if order.isPaid ≠ isPaid then
      { order with isPaid := isPaid, paidAt := if isPaid then some now else none }
    else order
  | _ => order

/-- Lines 108-115 of `updateOrderStatus`; `now` is `new Date()`. -/
def setDelivered {Num : Type} (now : Instant) (order : Order Num) : JsFlag → Order Num
  | .bool isDelivered =>
    if order.isDelivered ≠ isDelivered then
      { order with isDelivered := isDelivered,
                   deliveredAt := if isDelivered then some now else none }
    else order
  | _ => order

/-- Write-back of a loaded order by `save()`. -/
def OrderDb.replace {Num : Type} (db : OrderDb Num) (o : Order Num) : OrderDb Num :=
  ⟨db.orders.map (fun x => if x._id = o._id then o else x), db.fresh⟩

/-- Handler `updateOrderStatus` (lines 87-123). -/
def updateOrderStatus {Num : Type} (now : Instant) (id : ObjectId) (body : OrderStatusBody)
    (db : OrderDb Num) : OrderDb Num × OrderOutcome Num :=
  match Order.findById db id with
  | some order =>
    let order :=
      setDelivered now (setPaid now (setOrderStatus order body.status) body.isPaid)
        body.isDelivered
    if order.validate then (db.replace order, .ok order)
    else (db, .fail .validationError)
  | none => (db, .fail .notFound)

/-- One request to the order routes that write. -/
inductive OrderOp (Num : Type) where
  | create (user : ObjectId) (body : OrderBody Num)
  | setStatus (now : Instant) (id : ObjectId) (body : OrderStatusBody)
deriving DecidableEq, Repr

/-- The handler serving an order request. -/
def handleOrder {Num : Type} (A : Arith Num) (menu : List (MenuItem Num)) (db : OrderDb Num) :
    OrderOp Num → OrderDb Num × OrderOutcome Num
  | .create user body => createOrder A user menu body db
  | .setStatus now id body => updateOrderStatus now id body db

/-- The order collection after serving the requests one after the other, starting from `db`. -/
def runOrdersFrom {Num : Type} (A : Arith Num) (menu : List (MenuItem Num)) (db : OrderDb Num)
    (ops : List (OrderOp Num)) : OrderDb Num :=
  ops.foldl (fun d op => (handleOrder A menu d op).1) db

/-- The order collection after serving the requests from the empty collection. -/
def runOrders {Num : Type} (A : Arith Num) (menu : List (MenuItem Num))
    (ops : List (OrderOp Num)) : OrderDb Num :=
  runOrdersFrom A menu OrderDb.empty ops

/-- The payment and delivery timestamps of an order are set exactly when their flags are. -/
def Order.Stamped {Num : Type} (o : Order Num) : Prop :=
  (o.paidAt.isSome = true ↔ o.isPaid = true) ∧
    (o.deliveredAt.isSome = true ↔ o.isDelivered = true)

/-- The items total of the specification: stored price times requested quantity, added up over
the items from zero in their order (an item that names no menu item adds nothing). -/
def itemsTotal {Num : Type} (A : Arith Num) (menu : List (MenuItem Num))
    (items : List (OrderItemBody Num)) : Num :=
  items.foldl (fun t item =>
    match MenuItem.findById menu item.menuItem with
    | some m => A.add t (A.mul m.price item.qty)
    | none => t) A.zero

/-! ### Whole-number sample data

On integers of small magnitude the arithmetic of IEEE doubles is exact, the text of a number is
its decimal notation and a string of decimal digits is read as the number it denotes.  The
instance below is that arithmetic; it is used only to evaluate the order handlers at requests
whose numbers are small integers and whose strings are decimal numerals. -/

/-- The number denoted by decimal digits, most significant first, after the digits read so far
gave `acc`; `none` when a character is not a digit. -/
def digitsValue : List Char → Nat → Option Nat
  | [], acc => some acc
  | c :: cs, acc =>
    if c.isDigit then digitsValue cs (10 * acc + (c.toNat - 48)) else none

/-- The integer denoted by a decimal numeral with an optional minus sign. -/
def readInt (s : String) : Option Int :=
  match s.data with
  | [] => none
  | '-' :: cs => if cs = [] then none else (digitsValue cs 0).map (fun n => -(n : Int))
  | cs => (digitsValue cs 0).map Int.ofNat

/-- JavaScript arithmetic on small integers. -/
def intArith : Arith Int where
  zero := 0
  add := fun a b => a + b
  mul := fun a b => a * b
  truthy := fun a => a != 0
  text := fun a => toString a
  read := readInt

/-- A menu with soup (available, 4), pie (available, 7) and fish (not available). -/
def wholeMenu : List (MenuItem Int) :=
  [⟨1, "Soup", 4, true, "soup.jpg"⟩, ⟨2, "Pie", 7, true, "pie.jpg"⟩,
   ⟨3, "Fish", 12, false, "fish.jpg"⟩]

/-- Two soups and one pie. -/
def soupAndPie : List (OrderItemBody Int) :=
  [⟨1, 2, none, none⟩, ⟨2, 1, none, none⟩]

/-- An order of two soups and one pie, paid by card, with the given `deliveryFee`. -/
def orderWithFee (fee : JsValue Int) : OrderBody Int :=
  ⟨some soupAndPie, some "Card", none, some fee⟩

/-- A stored order of user 7: two soups, to be paid by card, neither paid nor delivered. -/
def storedOrder : Order Int :=
  ⟨0, 7, [⟨"Soup", 2, "soup.jpg", 4, 1⟩], 11, "Pending", some "Card", false, none,
    ⟨none, none, none, none⟩, 3, false, none⟩

end Restaurant

namespace Restaurant

/-! ## Queries -/

theorem contains_iff {l : List String} {s : String} : l.contains s = true ↔ s ∈ l :=
  List.elem_iff

theorem Table.findById_id {tables : List Table} {id : ObjectId} {t : Table}
    (h : Table.findById tables id = some t) : t._id = id := by
  have hp := List.find?_some h
  simpa using hp

theorem Reservation.findById_mem {db : Db} {id : ObjectId} {r : Reservation}
    (h : Reservation.findById db id = some r) : r ∈ db.reservations ∧ r._id = id := by
  refine ⟨List.mem_of_find?_eq_some h, ?_⟩
  have hp := List.find?_some h
  simpa using hp

theorem overlappingReservations_pos (db : Db) (table : ObjectId) (start stop : Instant) :
    (overlappingReservations db table start stop).length > 0 ↔
      ∃ r ∈ db.reservations, r.table = table ∧ r.status ∈ activeStatuses ∧
        r.startTime < stop ∧ r.endTime > start := by
  rw [gt_iff_lt, List.length_pos_iff_exists_mem]
  constructor
  · rintro ⟨r, hr⟩
    simp only [overlappingReservations, List.mem_filter, Bool.and_eq_true, beq_iff_eq,
      decide_eq_true_eq, contains_iff] at hr
    exact ⟨r, hr.1, hr.2.1.1.1, hr.2.2, hr.2.1.1.2, hr.2.1.2⟩
  · rintro ⟨r, hm, ht, hs, h1, h2⟩
    refine ⟨r, ?_⟩
    simp only [overlappingReservations, List.mem_filter, Bool.and_eq_true, beq_iff_eq,
      decide_eq_true_eq, contains_iff]
    exact ⟨hm, ⟨⟨ht, h1⟩, h2⟩, hs⟩

theorem overlappingReservationsExcept_pos (db : Db) (table self : ObjectId)
    (start stop : Instant) :
    (overlappingReservationsExcept db table self start stop).length > 0 ↔
      ∃ r ∈ db.reservations, r.table = table ∧ r._id ≠ self ∧ r.status ∈ activeStatuses ∧
        r.startTime < stop ∧ r.endTime > start := by
  rw [gt_iff_lt, List.length_pos_iff_exists_mem]
  constructor
  · rintro ⟨r, hr⟩
    simp only [overlappingReservationsExcept, List.mem_filter, Bool.and_eq_true, beq_iff_eq,
      bne_iff_ne, decide_eq_true_eq, contains_iff] at hr
    exact ⟨r, hr.1, hr.2.1.1.1.1, hr.2.1.1.1.2, hr.2.2, hr.2.1.1.2, hr.2.1.2⟩
  · rintro ⟨r, hm, ht, hid, hs, h1, h2⟩
    refine ⟨r, ?_⟩
    simp only [overlappingReservationsExcept, List.mem_filter, Bool.and_eq_true, beq_iff_eq,
      bne_iff_ne, decide_eq_true_eq, contains_iff]
    exact ⟨hm, ⟨⟨⟨ht, hid⟩, h1⟩, h2⟩, hs⟩

/-- The shape of `createReservation` once the required fields are present and the interval
checks of lines 23-30 pass: only the capacity check, the overlap query and `save()` remain. -/
theorem createReservation_after_step1 (now : Instant) (user : ObjectId) (tables : List Table)
    (body : CreateBody) (db : Db) (table : ObjectId) (start stop : Instant) (n : Int)
    (t : Table) (hb : body.table = some table) (hs : body.startTime = some start)
    (he : body.endTime = some stop) (hn : body.numberOfGuests = some n) (hn0 : n ≠ 0)
    (hlt : start < stop) (hnow : now ≤ start) (ht : Table.findById tables table = some t) :
    createReservation now user tables body db =
      if n > t.capacity then (db, .fail .capacityExceeded)
      else if (overlappingReservations db table start stop).length > 0 then
        (db, .fail .slotConflict)
      else
        let reservation := newReservation db user table start stop n body.notes
        if reservation.validate then (db.insert reservation, .created reservation)
        else (db, .fail .validationError) := by
  have hid := Table.findById_id ht
  simp only [createReservation, hb, hs, he, hn, truthyNum, hn0, if_false, ht, hid,
    ge_iff_le, not_le.mpr hlt, not_lt.mpr hnow]

end Restaurant

namespace Restaurant

/-! ## Create -/

/-- C1 (failing run). The invariant "no two active reservations of one table overlap" does not
survive the status route: booking 10:00-11:00, cancelling it, booking the same slot again and
setting the first reservation back to `Pending` leaves two distinct `Pending` reservations of
table 1 with the same interval in the collection. -/
theorem run_reactivation_double_books :
    run sampleTables reactivationOps =
        ⟨[⟨0, 7, 1, 1000, 1100, 2, "Pending", none⟩, ⟨1, 8, 1, 1000, 1100, 2, "Pending", none⟩], 2⟩ ∧
      ∃ a ∈ (run sampleTables reactivationOps).reservations,
        ∃ b ∈ (run sampleTables reactivationOps).reservations,
          a._id ≠ b._id ∧ a.table = b.table ∧ a.active ∧ b.active ∧ a.overlaps b := by
  refine ⟨by decide, ⟨0, 7, 1, 1000, 1100, 2, "Pending", none⟩, by decide,
    ⟨1, 8, 1, 1000, 1100, 2, "Pending", none⟩, by decide, by decide⟩

/-- C2. For a create request that passes the field, interval, table and capacity checks, the
response is the 409 slot conflict exactly when the collection holds a reservation of that
table with status `Pending`, `Confirmed` or `Completed` and `startTime < end`, `endTime > start`;
when every overlapping reservation of the table is `Cancelled` or `No-Show` the response is not
the slot conflict. -/
theorem createReservation_slotConflict_iff (now : Instant) (user : ObjectId)
    (tables : List Table) (body : CreateBody) (db : Db) (table : ObjectId)
    (start stop : Instant) (n : Int) (t : Table)
    (hb : body.table = some table) (hs : body.startTime = some start)
    (he : body.endTime = some stop) (hn : body.numberOfGuests = some n) (hn0 : n ≠ 0)
    (hlt : start < stop) (hnow : now ≤ start) (ht : Table.findById tables table = some t)
    (hcap : n ≤ t.capacity) :
    ((createReservation now user tables body db).2 = .fail .slotConflict ↔
      ∃ r ∈ db.reservations, r.table = table ∧ r.status ∈ activeStatuses ∧
        r.startTime < stop ∧ r.endTime > start) ∧
    ((∀ r ∈ db.reservations, r.table = table → r.startTime < stop → r.endTime > start →
        r.status = "Cancelled" ∨ r.status = "No-Show") →
      (createReservation now user tables body db).2 ≠ .fail .slotConflict) := by
  have key : (createReservation now user tables body db).2 = .fail .slotConflict ↔
      ∃ r ∈ db.reservations, r.table = table ∧ r.status ∈ activeStatuses ∧
        r.startTime < stop ∧ r.endTime > start := by
    rw [createReservation_after_step1 now user tables body db table start stop n t hb hs he hn
      hn0 hlt hnow ht, if_neg (not_lt.mpr hcap), ← overlappingReservations_pos]
    by_cases hc : (overlappingReservations db table start stop).length > 0
    · simp [hc]
    · simp only [hc, if_false, iff_false]
      split_ifs <;> simp
  refine ⟨key, fun hall hfail => ?_⟩
  obtain ⟨r, hm, htab, hact, h1, h2⟩ := key.mp hfail
  rcases hall r hm htab h1 h2 with h | h <;> rw [h] at hact <;> revert hact <;> decide

/-- C2 (instance). With 10:00-11:00 booked and `Pending`, a valid request for 10:30-11:30 on
the same table is answered with the slot conflict. -/
theorem createReservation_slotConflict_iff_witness :
    (createReservation 900 8 sampleTables (booking 1030 1130 2)
      ⟨[stored 0 1000 1100 "Pending"], 1⟩).2 = .fail .slotConflict :=
  (createReservation_slotConflict_iff 900 8 sampleTables (booking 1030 1130 2)
    ⟨[stored 0 1000 1100 "Pending"], 1⟩ 1 1030 1130 2 ⟨1, 1, 4, true, none, none⟩ rfl rfl rfl rfl
    (by decide) (by decide) (by decide) rfl (by decide)).1.mpr
    ⟨stored 0 1000 1100 "Pending", by decide, by decide, by decide, by decide, by decide⟩

end Restaurant

namespace Restaurant

theorem newReservation_validate (db : Db) (user table : ObjectId) (start stop : Instant)
    (n : Int) (notes : Option String) (h1 : 1 ≤ n) (hlt : start < stop) :
    (newReservation db user table start stop n notes).validate = true := by
  simp only [Reservation.validate, newReservation, Bool.and_eq_true, decide_eq_true_eq,
    Bool.not_eq_true', decide_eq_false_iff_not, ge_iff_le, not_le]
  exact ⟨⟨h1, by decide⟩, hlt⟩

/-- A valid create request on a slot that no active reservation of the table overlaps inserts
the document of lines 66-74 and answers with it. -/
theorem createReservation_of_free (now : Instant) (user : ObjectId)
    (tables : List Table) (body : CreateBody) (db : Db) (table : ObjectId)
    (start stop : Instant) (n : Int) (t : Table)
    (hb : body.table = some table) (hs : body.startTime = some start)
    (he : body.endTime = some stop) (hn : body.numberOfGuests = some n)
    (hlt : start < stop) (hnow : now ≤ start) (ht : Table.findById tables table = some t)
    (h1 : 1 ≤ n) (hcap : n ≤ t.capacity)
    (hfree : ∀ r ∈ db.reservations, r.table = table → r.status ∈ activeStatuses →
      ¬ (r.startTime < stop ∧ r.endTime > start)) :
    createReservation now user tables body db =
      (db.insert (newReservation db user table start stop n body.notes),
        .created (newReservation db user table start stop n body.notes)) := by
  have hn0 : n ≠ 0 := by omega
  have hnone : ¬ (overlappingReservations db table start stop).length > 0 := by
    rw [overlappingReservations_pos]
    rintro ⟨r, hm, htab, hact, h⟩
    exact hfree r hm htab hact h
  rw [createReservation_after_step1 now user tables body db table start stop n t hb hs he hn
    hn0 hlt hnow ht, if_neg (not_lt.mpr hcap), if_neg hnone]
  simp only [newReservation_validate db user table start stop n body.notes h1 hlt, if_true]

/-- C3. Touching intervals do not conflict in create.  If every active reservation of the table
is one reservation `r0` that ends at `T`, an otherwise valid request starting at `T` inserts its
document and is answered with it; the same holds for a request ending at `T` when `r0` starts at
`T`.  On a table of capacity 4: 10:00-11:00 for 4 guests is created (201), then 10:30-11:30 for
2 guests is refused with 409, then 11:00-12:00 for 2 guests is created (201) and both
reservations are stored. -/
theorem createReservation_touching :
    (∀ (now : Instant) (user : ObjectId) (tables : List Table) (body : CreateBody) (db : Db)
        (table : ObjectId) (T stop : Instant) (n : Int) (t : Table) (r0 : Reservation),
        body.table = some table → body.startTime = some T → body.endTime = some stop →
        body.numberOfGuests = some n → T < stop → now ≤ T →
        Table.findById tables table = some t → 1 ≤ n → n ≤ t.capacity →
        r0 ∈ db.reservations → r0.table = table → r0.active → r0.endTime = T →
        (∀ r ∈ db.reservations, r.table = table → r.active → r = r0) →
        createReservation now user tables body db =
          (db.insert (newReservation db user table T stop n body.notes),
            .created (newReservation db user table T stop n body.notes))) ∧
    (∀ (now : Instant) (user : ObjectId) (tables : List Table) (body : CreateBody) (db : Db)
        (table : ObjectId) (start T : Instant) (n : Int) (t : Table) (r0 : Reservation),
        body.table = some table → body.startTime = some start → body.endTime = some T →
        body.numberOfGuests = some n → start < T → now ≤ start →
        Table.findById tables table = some t → 1 ≤ n → n ≤ t.capacity →
        r0 ∈ db.reservations → r0.table = table → r0.active → r0.startTime = T →
        (∀ r ∈ db.reservations, r.table = table → r.active → r = r0) →
        createReservation now user tables body db =
          (db.insert (newReservation db user table start T n body.notes),
            .created (newReservation db user table start T n body.notes))) ∧
    (createReservation 900 7 sampleTables (booking 1000 1100 4) Db.empty =
        (⟨[⟨0, 7, 1, 1000, 1100, 4, "Pending", none⟩], 1⟩,
          .created ⟨0, 7, 1, 1000, 1100, 4, "Pending", none⟩) ∧
      createReservation 900 8 sampleTables (booking 1030 1130 2)
          ⟨[⟨0, 7, 1, 1000, 1100, 4, "Pending", none⟩], 1⟩ =
        (⟨[⟨0, 7, 1, 1000, 1100, 4, "Pending", none⟩], 1⟩, .fail .slotConflict) ∧
      Outcome.code (.fail .slotConflict) = some 409 ∧
      createReservation 900 8 sampleTables (booking 1100 1200 2)
          ⟨[⟨0, 7, 1, 1000, 1100, 4, "Pending", none⟩], 1⟩ =
        (⟨[⟨0, 7, 1, 1000, 1100, 4, "Pending", none⟩,
            ⟨1, 8, 1, 1100, 1200, 2, "Pending", none⟩], 2⟩,
          .created ⟨1, 8, 1, 1100, 1200, 2, "Pending", none⟩)) := by
  refine ⟨?_, ?_, by decide⟩
  · intro now user tables body db table T stop n t r0 hb hs he hn hlt hnow ht h1 hcap _ _ _
      hend honly
    refine createReservation_of_free now user tables body db table T stop n t hb hs he hn hlt
      hnow ht h1 hcap ?_
    intro r hm htab hact hov
    rw [honly r hm htab hact, hend] at hov
    exact lt_irrefl _ hov.2
  · intro now user tables body db table start T n t r0 hb hs he hn hlt hnow ht h1 hcap _ _ _
      hstart honly
    refine createReservation_of_free now user tables body db table start T n t hb hs he hn hlt
      hnow ht h1 hcap ?_
    intro r hm htab hact hov
    rw [honly r hm htab hact, hstart] at hov
    exact lt_irrefl _ hov.1

/-- C3 (instance). With 10:00-11:00 the only active reservation of table 1, the request for
11:00-12:00 is created and stored next to it. -/
theorem createReservation_touching_witness :
    createReservation 900 8 sampleTables (booking 1100 1200 2)
        ⟨[stored 0 1000 1100 "Confirmed"], 1⟩ =
      (⟨[stored 0 1000 1100 "Confirmed", ⟨1, 8, 1, 1100, 1200, 2, "Pending", none⟩], 2⟩,
        .created ⟨1, 8, 1, 1100, 1200, 2, "Pending", none⟩) :=
  createReservation_touching.1 900 8 sampleTables (booking 1100 1200 2)
    ⟨[stored 0 1000 1100 "Confirmed"], 1⟩ 1 1100 1200 2 ⟨1, 1, 4, true, none, none⟩
    (stored 0 1000 1100 "Confirmed") rfl rfl rfl rfl (by decide) (by decide) rfl (by decide)
    (by decide) (by decide) rfl (by decide) rfl (by decide)

/-- C4. A create request with an existing table, `start < end`, `start` not before now,
`1 ≤ numberOfGuests ≤ capacity` and no active reservation of that table overlapping the interval
is answered 201; the collection grows by exactly one document, placed after the unchanged
previous ones, and that document is `Pending`, belongs to the caller and carries the requested
table, party size, notes, start and end. -/
theorem createReservation_success (now : Instant) (user : ObjectId)
    (tables : List Table) (body : CreateBody) (db : Db) (table : ObjectId)
    (start stop : Instant) (n : Int) (t : Table)
    (hb : body.table = some table) (hs : body.startTime = some start)
    (he : body.endTime = some stop) (hn : body.numberOfGuests = some n)
    (hlt : start < stop) (hnow : now ≤ start) (ht : Table.findById tables table = some t)
    (h1 : 1 ≤ n) (hcap : n ≤ t.capacity)
    (hfree : ∀ r ∈ db.reservations, r.table = table → r.active →
      ¬ (r.startTime < stop ∧ start < r.endTime)) :
    ∃ r : Reservation,
      createReservation now user tables body db = (⟨db.reservations ++ [r], db.fresh + 1⟩,
        .created r) ∧
      (Outcome.created r).code = some 201 ∧
      r.status = "Pending" ∧ r.user = user ∧ r.table = table ∧ r.numberOfGuests = n ∧
      r.notes = body.notes ∧ r.startTime = start ∧ r.endTime = stop := by
  refine ⟨newReservation db user table start stop n body.notes, ?_, rfl, rfl, rfl, rfl, rfl,
    rfl, rfl, rfl⟩
  refine createReservation_of_free now user tables body db table start stop n t hb hs he hn hlt
    hnow ht h1 hcap ?_
  intro r hm htab hact hov
  exact hfree r hm htab hact ⟨hov.1, hov.2⟩

/-- C4 (instance). With only a cancelled 10:00-11:00 reservation and an active 11:00-12:00 one
stored, the request for 10:00-11:00, 4 guests, table 1 is stored as given. -/
theorem createReservation_success_witness :
    ∃ r : Reservation,
      createReservation 900 7 sampleTables (booking 1000 1100 4)
          ⟨[stored 0 1000 1100 "Cancelled", stored 1 1100 1200 "Confirmed"], 2⟩ =
        (⟨[stored 0 1000 1100 "Cancelled", stored 1 1100 1200 "Confirmed"] ++ [r], 2 + 1⟩,
          .created r) ∧
      (Outcome.created r).code = some 201 ∧
      r.status = "Pending" ∧ r.user = 7 ∧ r.table = 1 ∧ r.numberOfGuests = 4 ∧
      r.notes = none ∧ r.startTime = 1000 ∧ r.endTime = 1100 :=
  createReservation_success 900 7 sampleTables (booking 1000 1100 4)
    ⟨[stored 0 1000 1100 "Cancelled", stored 1 1100 1200 "Confirmed"], 2⟩ 1 1000 1100 4
    ⟨1, 1, 4, true, none, none⟩ rfl rfl rfl rfl (by decide) (by decide) rfl (by decide) (by decide)
    (by decide)

end Restaurant

namespace Restaurant

/-- C5 (counterexample). A party larger than the table is not always answered with the capacity
error: the request for table 1 (capacity 4), 10 guests, start 11:00 and end 10:00 is answered
with the interval error, because the interval checks of lines 23-30 come first. -/
theorem createReservation_capacity_not_always :
    ¬ ∀ (now : Instant) (user : ObjectId) (tables : List Table) (body : CreateBody) (db : Db)
        (table : ObjectId) (n : Int) (t : Table),
        body.table = some table → Table.findById tables table = some t →
        body.numberOfGuests = some n → n > t.capacity →
        (createReservation now user tables body db).2 = .fail .capacityExceeded := by
  intro h
  have hbad := h 900 7 sampleTables (booking 1100 1000 10) Db.empty 1 10 ⟨1, 1, 4, true, none, none⟩
    rfl rfl rfl (by decide)
  revert hbad
  decide

/-- C5 (amended). A create request whose party is larger than the capacity of the table it
names is never stored: the response is an error and the collection is unchanged.  When the
required fields are present, `start < end` and `start` is not before now, that error is the 400
capacity error. -/
theorem createReservation_capacityExceeded (now : Instant) (user : ObjectId)
    (tables : List Table) (body : CreateBody) (db : Db) (table : ObjectId) (n : Int) (t : Table)
    (hb : body.table = some table) (ht : Table.findById tables table = some t)
    (hn : body.numberOfGuests = some n) (hcap : n > t.capacity) :
    (createReservation now user tables body db).1 = db ∧
    (∃ e, (createReservation now user tables body db).2 = .fail e) ∧
    (∀ start stop : Instant, body.startTime = some start → body.endTime = some stop →
      n ≠ 0 → start < stop → now ≤ start →
      createReservation now user tables body db = (db, .fail .capacityExceeded) ∧
      Outcome.code (.fail .capacityExceeded) = some 400) := by
  have hstep : ∀ start stop : Instant, body.startTime = some start → body.endTime = some stop →
      n ≠ 0 → start < stop → now ≤ start →
      createReservation now user tables body db = (db, .fail .capacityExceeded) := by
    intro start stop hs he hn0 hlt hnow
    rw [createReservation_after_step1 now user tables body db table start stop n t hb hs he hn
      hn0 hlt hnow ht, if_pos hcap]
  have hall : createReservation now user tables body db = (db, .fail .capacityExceeded) ∨
      createReservation now user tables body db = (db, .fail .missingFields) ∨
      createReservation now user tables body db = (db, .fail .invalidInterval) ∨
      createReservation now user tables body db = (db, .fail .pastReservation) := by
    rcases hs : body.startTime with _ | start
    · right; left; simp [createReservation, hb, hs]
    rcases he : body.endTime with _ | stop
    · right; left; simp [createReservation, hb, hs, he]
    by_cases hn0 : n = 0
    · right; left; simp [createReservation, hb, hs, he, hn, hn0, truthyNum]
    by_cases hlt : start < stop
    · by_cases hnow : now ≤ start
      · left; exact hstep start stop hs he hn0 hlt hnow
      · right; right; right
        simp [createReservation, hb, hs, he, hn, hn0, truthyNum, not_le.mpr hlt,
          not_le.mp hnow]
    · right; right; left
      simp [createReservation, hb, hs, he, hn, hn0, truthyNum, not_lt.mp hlt]
  refine ⟨?_, ?_, fun start stop hs he hn0 hlt hnow => ⟨hstep start stop hs he hn0 hlt hnow, rfl⟩⟩
  · rcases hall with h | h | h | h <;> rw [h]
  · rcases hall with h | h | h | h <;> rw [h] <;> exact ⟨_, rfl⟩

/-- C5 (instance). Ten guests on the capacity-4 table with a valid future interval: the 400
capacity error, nothing stored. -/
theorem createReservation_capacityExceeded_witness :
    createReservation 900 7 sampleTables (booking 1000 1100 10) Db.empty =
      (Db.empty, .fail .capacityExceeded) :=
  ((createReservation_capacityExceeded 900 7 sampleTables (booking 1000 1100 10) Db.empty 1 10
    ⟨1, 1, 4, true, none, none⟩ rfl rfl rfl (by decide)).2.2 1000 1100 rfl rfl (by decide) (by decide)
    (by decide)).1

end Restaurant

namespace Restaurant

/-! ## Update and status update -/

/-- C6 (failing input). With 10:00-11:00 and 12:00-13:00 both `Pending` on table 1, the update
of the second one that gives only `startTime` 10:30 and `endTime` 11:30 is answered 200 and
stored, although the first reservation is active, on the same table, and overlaps 10:30-11:30:
the availability query of lines 189-210 is nested in `if (table || numberOfGuests)` and is not
reached. -/
theorem updateReservation_times_only_skips_conflict :
    updateReservation 900 sampleTables 1 (timesOnly 1030 1130)
        ⟨[stored 0 1000 1100 "Pending", stored 1 1200 1300 "Pending"], 2⟩ =
      (⟨[stored 0 1000 1100 "Pending", stored 1 1030 1130 "Pending"], 2⟩,
        .ok (stored 1 1030 1130 "Pending")) ∧
    (stored 0 1000 1100 "Pending").active ∧
    (stored 0 1000 1100 "Pending").table = (stored 1 1030 1130 "Pending").table ∧
    (stored 0 1000 1100 "Pending").overlaps (stored 1 1030 1130 "Pending") := by
  decide

/-- C7 (failing input). With a cancelled and a confirmed reservation of table 1 for the same
10:00-11:00, the status update of the cancelled one to `Pending` is answered 200 and stored,
leaving two active reservations of the table on one interval.  The handler has no overlap
query: for no input at all is its response the slot conflict. -/
theorem updateReservationStatus_no_conflict_check :
    updateReservationStatus 0 (some "Pending")
        ⟨[stored 0 1000 1100 "Cancelled", stored 1 1000 1100 "Confirmed"], 2⟩ =
      (⟨[stored 0 1000 1100 "Pending", stored 1 1000 1100 "Confirmed"], 2⟩,
        .ok (stored 0 1000 1100 "Pending")) ∧
    (stored 1 1000 1100 "Confirmed").active ∧
    (stored 1 1000 1100 "Confirmed").overlaps (stored 0 1000 1100 "Cancelled") ∧
    ∀ (id : ObjectId) (status : Option String) (db : Db),
      (updateReservationStatus id status db).2 ≠ .fail .slotConflict := by
  refine ⟨by decide, by decide, by decide, ?_⟩
  intro id status db
  unfold updateReservationStatus
  split
  · dsimp only
    split_ifs <;> simp
  · simp

end Restaurant

namespace Restaurant

theorem includesStatus_iff (l : List String) (hl : "" ∉ l) (status : Option String) :
    includesStatus l status = true ↔ ∃ s, status = some s ∧ s ∈ l := by
  cases status with
  | none => simp [includesStatus, truthyStr]
  | some s =>
    by_cases hs : s = ""
    · subst hs
      simp [includesStatus, truthyStr, hl]
    · simp [includesStatus, truthyStr, hs, contains_iff]

theorem includesStatus_enumValues (status : Option String) :
    includesStatus enumValues status = true ↔ ∃ s, status = some s ∧ s ∈ enumValues :=
  includesStatus_iff enumValues (by decide) status

theorem includesStatus_pendingOrConfirmed (status : Option String) :
    includesStatus pendingOrConfirmed status = true ↔
      ∃ s, status = some s ∧ s ∈ pendingOrConfirmed :=
  includesStatus_iff pendingOrConfirmed (by decide) status

/-- The status route on a stored document and a recognised value: the write-back happens when
`save()` accepts the document with the new status. -/
theorem updateReservationStatus_of_enum (id : ObjectId) (s : String) (db : Db)
    (r : Reservation) (hfind : Reservation.findById db id = some r) (hs : s ∈ enumValues) :
    updateReservationStatus id (some s) db =
      if ({ r with status := s } : Reservation).validate then
        (db.replace { r with status := s }, .ok { r with status := s })
      else (db, .fail .validationError) := by
  have hinc : includesStatus enumValues (some s) = true :=
    (includesStatus_enumValues (some s)).mpr ⟨s, rfl, hs⟩
  simp only [updateReservationStatus, hfind, hinc, if_true, Option.getD_some]

theorem validate_iff (r : Reservation) :
    r.validate = true ↔ 1 ≤ r.numberOfGuests ∧ r.status ∈ enumValues ∧ r.startTime < r.endTime := by
  simp only [Reservation.validate, Bool.and_eq_true, decide_eq_true_eq, Bool.not_eq_true',
    decide_eq_false_iff_not, ge_iff_le, not_le, contains_iff, and_assoc]

/-- C8. Cancelling frees the slot.  Let `r` be stored and be the only active reservation of its
table overlapping its own interval.  If the status update of `r` to `Cancelled` is answered 200,
leaving the collection `db1`, then the stored document is `r` with status `Cancelled`, and a
create request on the same table with the identical interval, `start` not before now and
`1 ≤ numberOfGuests ≤ capacity` is answered 201 and its document is inserted after the
documents of `db1`, the cancelled `r` among them. -/
theorem cancel_frees_slot (now : Instant) (user : ObjectId) (tables : List Table) (db db1 : Db)
    (r r1 : Reservation) (t : Table) (n : Int) (notes : Option String)
    (hfind : Reservation.findById db r._id = some r) (hact : r.active)
    (honly : ∀ x ∈ db.reservations, x.table = r.table → x.active →
      x.startTime < r.endTime → r.startTime < x.endTime → x = r)
    (hupd : updateReservationStatus r._id (some "Cancelled") db = (db1, .ok r1))
    (ht : Table.findById tables r.table = some t) (hnow : now ≤ r.startTime)
    (h1 : 1 ≤ n) (hcap : n ≤ t.capacity) :
    r1 = { r with status := "Cancelled" } ∧ r1 ∈ db1.reservations ∧
    createReservation now user tables ⟨some r.table, some r.startTime, some r.endTime, some n, notes⟩
        db1 =
      (⟨db1.reservations ++ [newReservation db1 user r.table r.startTime r.endTime n notes],
          db1.fresh + 1⟩,
        .created (newReservation db1 user r.table r.startTime r.endTime n notes)) ∧
    (Outcome.created (newReservation db1 user r.table r.startTime r.endTime n notes)).code =
      some 201 := by
  have _ := hact
  rw [updateReservationStatus_of_enum r._id "Cancelled" db r hfind (by decide)] at hupd
  by_cases hv : ({ r with status := "Cancelled" } : Reservation).validate = true
  · rw [if_pos hv] at hupd
    have hdb : db1 = db.replace { r with status := "Cancelled" } := (Prod.mk.inj hupd).1.symm
    have hr1 : r1 = { r with status := "Cancelled" } := by
      have h2 := (Prod.mk.inj hupd).2
      injection h2 with h2
      exact h2.symm
    have hlt : r.startTime < r.endTime := ((validate_iff _).mp hv).2.2
    have hmem : r1 ∈ db1.reservations := by
      rw [hdb, hr1]
      simp only [Db.replace, List.mem_map]
      exact ⟨r, (Reservation.findById_mem hfind).1, by simp⟩
    refine ⟨hr1, hmem, ?_, rfl⟩
    refine createReservation_of_free now user tables _ db1 r.table r.startTime r.endTime n t
      rfl rfl rfl rfl hlt hnow ht h1 hcap ?_
    intro y hy htab hyact hov
    rw [hdb] at hy
    simp only [Db.replace, List.mem_map] at hy
    obtain ⟨x, hx, hxy⟩ := hy
    by_cases hid : x._id = r._id
    · rw [if_pos hid] at hxy
      rw [← hxy] at hyact
      have hc : ¬ ("Cancelled" ∈ activeStatuses) := by decide
      exact hc hyact
    · rw [if_neg hid] at hxy
      subst hxy
      exact hid (congrArg Reservation._id (honly x hx htab hyact hov.1 hov.2))
  · rw [if_neg hv] at hupd
    have h2 := (Prod.mk.inj hupd).2
    cases h2

/-- C8 (instance). The confirmed 10:00-11:00 reservation of table 1 is cancelled; the request for
the same table and interval is then created and stored next to it. -/
theorem cancel_frees_slot_witness :
    createReservation 900 8 sampleTables ⟨some 1, some 1000, some 1100, some 3, none⟩
        ⟨[stored 0 1000 1100 "Cancelled", stored 1 1100 1200 "Pending"], 2⟩ =
      (⟨[stored 0 1000 1100 "Cancelled", stored 1 1100 1200 "Pending"] ++
          [⟨2, 8, 1, 1000, 1100, 3, "Pending", none⟩], 2 + 1⟩,
        .created ⟨2, 8, 1, 1000, 1100, 3, "Pending", none⟩) :=
  (cancel_frees_slot 900 8 sampleTables
    ⟨[stored 0 1000 1100 "Confirmed", stored 1 1100 1200 "Pending"], 2⟩
    ⟨[stored 0 1000 1100 "Cancelled", stored 1 1100 1200 "Pending"], 2⟩
    (stored 0 1000 1100 "Confirmed") (stored 0 1000 1100 "Cancelled") ⟨1, 1, 4, true, none, none⟩ 3 none
    (by decide) (by decide) (by decide) (by decide) (by decide) (by decide) (by decide)
    (by decide)).2.2.1

end Restaurant

namespace Restaurant

theorem find?_map_replace (l : List Reservation) (id : ObjectId) (r r' : Reservation)
    (hid : r'._id = id) (hfind : l.find? (fun x => x._id == id) = some r) :
    (l.map (fun x => if x._id = id then r' else x)).find? (fun x => x._id == id) = some r' := by
  induction l with
  | nil => simp at hfind
  | cons a l ih =>
    by_cases ha : a._id = id
    · simp [List.find?_cons, ha, hid]
    · have hne : (a._id == id) = false := by simpa using ha
      simp only [List.find?_cons, hne] at hfind
      simp only [List.map_cons, if_neg ha, List.find?_cons, hne]
      exact ih hfind

/-- C9. Status route.  For a stored reservation `r` with id `id`, the response is the 400
invalid-status error exactly when the value is missing or not one of the five recognised
values, and then nothing is written; for a recognised value `s` (the stored document passing the
schema, as every document written by `save()` does) the response is 200, the document with that
id becomes `r` with status `s` and every other field as before, and every other document is
unchanged.  For an id that is not stored the response is the 404 not-found error and nothing is
written. -/
theorem updateReservationStatus_spec (id : ObjectId) (status : Option String) (db : Db) :
    (∀ r, Reservation.findById db id = some r →
      ((updateReservationStatus id status db).2 = .fail .invalidStatus ↔
        (status = none ∨ ∃ s, status = some s ∧ s ∉ enumValues)) ∧
      ((updateReservationStatus id status db).2 = .fail .invalidStatus →
        (updateReservationStatus id status db).1 = db) ∧
      Outcome.code (.fail .invalidStatus) = some 400 ∧
      (∀ s, status = some s → s ∈ enumValues → r.validate = true →
        updateReservationStatus id status db =
          (⟨db.reservations.map (fun x => if x._id = id then { r with status := s } else x),
              db.fresh⟩,
            .ok { r with status := s }) ∧
        Reservation.findById (updateReservationStatus id status db).1 id =
          some { r with status := s } ∧
        (Outcome.ok { r with status := s }).code = some 200)) ∧
    (Reservation.findById db id = none →
      updateReservationStatus id status db = (db, .fail .notFound) ∧
      Outcome.code (.fail .notFound) = some 404) := by
  refine ⟨fun r hfind => ⟨?_, ?_, rfl, ?_⟩, fun hnone => ⟨?_, rfl⟩⟩
  · by_cases hinc : includesStatus enumValues status = true
    · obtain ⟨s, hs, hmem⟩ := (includesStatus_enumValues status).mp hinc
      subst hs
      rw [updateReservationStatus_of_enum id s db r hfind hmem]
      constructor
      · intro h
        split_ifs at h
        simp at h
      · rintro (h | ⟨s', hs', hn⟩)
        · simp at h
        · simp only [Option.some.injEq] at hs'
          subst hs'
          exact absurd hmem hn
    · have hfail : updateReservationStatus id status db = (db, .fail .invalidStatus) := by
        simp only [updateReservationStatus, hfind, hinc, Bool.false_eq_true, if_false]
      rw [hfail]
      refine ⟨fun _ => ?_, fun _ => rfl⟩
      cases status with
      | none => exact Or.inl rfl
      | some s =>
        refine Or.inr ⟨s, rfl, fun hmem => hinc ?_⟩
        exact (includesStatus_enumValues (some s)).mpr ⟨s, rfl, hmem⟩
  · intro h
    by_cases hinc : includesStatus enumValues status = true
    · obtain ⟨s, hs, hmem⟩ := (includesStatus_enumValues status).mp hinc
      subst hs
      rw [updateReservationStatus_of_enum id s db r hfind hmem] at h ⊢
      split_ifs at h ⊢
      simp at h ⊢
    · simp only [updateReservationStatus, hfind, hinc, Bool.false_eq_true, if_false]
  · intro s hs hmem hv
    subst hs
    have hid : r._id = id := (Reservation.findById_mem hfind).2
    have hv' : ({ r with status := s } : Reservation).validate = true := by
      rw [validate_iff] at hv ⊢
      exact ⟨hv.1, hmem, hv.2.2⟩
    have heq : updateReservationStatus id (some s) db =
        (⟨db.reservations.map (fun x => if x._id = id then { r with status := s } else x),
            db.fresh⟩,
          .ok { r with status := s }) := by
      rw [updateReservationStatus_of_enum id s db r hfind hmem, if_pos hv']
      simp only [Db.replace, hid]
    refine ⟨heq, ?_, rfl⟩
    rw [heq]
    exact find?_map_replace db.reservations id r _ hid hfind
  · simp only [updateReservationStatus, hnone]

end Restaurant

namespace Restaurant

/-- C9 (instance). Confirming the pending reservation 0 rewrites its status only and leaves
reservation 1 as it was. -/
theorem updateReservationStatus_spec_witness :
    updateReservationStatus 0 (some "Confirmed")
        ⟨[stored 0 1000 1100 "Pending", stored 1 1100 1200 "Pending"], 2⟩ =
      (⟨[stored 0 1000 1100 "Confirmed", stored 1 1100 1200 "Pending"], 2⟩,
        .ok (stored 0 1000 1100 "Confirmed")) :=
  (((updateReservationStatus_spec 0 (some "Confirmed")
    ⟨[stored 0 1000 1100 "Pending", stored 1 1100 1200 "Pending"], 2⟩).1
    (stored 0 1000 1100 "Pending") (by decide)).2.2.2 "Confirmed" rfl (by decide)
    (by decide)).1

theorem checkTableAndSlot_cases (tables : List Table) (db : Db) (reservation : Reservation)
    (body : UpdateBody) (start stop : Instant) (e : Err)
    (h : checkTableAndSlot tables db reservation body start stop = some e) :
    e = .tableNotFound ∨ e = .capacityExceeded ∨ e = .slotConflict := by
  unfold checkTableAndSlot at h
  split_ifs at h
  · dsimp only at h
    split at h
    · simp only [Option.some.injEq] at h
      exact Or.inl h.symm
    · split_ifs at h
      · simp only [Option.some.injEq] at h
        exact Or.inr (Or.inl h.symm)
      · simp only [Option.some.injEq] at h
        exact Or.inr (Or.inr h.symm)

/-- The handler `updateReservation` never answers with the invalid-status error. -/
theorem updateReservation_ne_invalidStatus (now : Instant) (tables : List Table)
    (id : ObjectId) (body : UpdateBody) (db : Db) :
    (updateReservation now tables id body db).2 ≠ .fail .invalidStatus := by
  unfold updateReservation
  split
  · rename_i reservation _
    dsimp only
    split_ifs
    · simp
    · simp
    · split
      · rename_i e he
        rcases checkTableAndSlot_cases _ _ _ _ _ _ e he with h | h | h <;> simp [h]
      · unfold applyUpdate
        dsimp only
        split_ifs <;> simp
  · simp

/-- An unrecognised status in the body of `updateReservation` is treated as an absent one. -/
theorem updateReservation_unrecognised (now : Instant) (tables : List Table)
    (id : ObjectId) (body : UpdateBody) (db : Db) (s : String)
    (hs : body.status = some s) (hbad : s ∉ enumValues) :
    updateReservation now tables id body db =
      updateReservation now tables id { body with status := none } db := by
  have h1 : includesStatus enumValues body.status = false := by
    rw [Bool.eq_false_iff, Ne, includesStatus_enumValues, hs]
    rintro ⟨s', hs', hm⟩
    simp only [Option.some.injEq] at hs'
    subst hs'
    exact hbad hm
  have h2 : includesStatus pendingOrConfirmed body.status = false := by
    rw [Bool.eq_false_iff, Ne, includesStatus_pendingOrConfirmed, hs]
    rintro ⟨s', hs', hm⟩
    simp only [Option.some.injEq] at hs'
    subst hs'
    refine hbad ?_
    simp only [pendingOrConfirmed, List.mem_cons, List.mem_singleton, List.not_mem_nil,
      or_false] at hm
    rcases hm with rfl | rfl <;> decide
  have h3 : ∀ l, includesStatus l none = false := fun l => rfl
  simp only [updateReservation, checkTableAndSlot, applyUpdate, h1, h2, h3, Bool.false_eq_true,
    if_false]

end Restaurant

namespace Restaurant

/-- C10 (counterexample). The update of the pending reservation 0 with the unrecognised status
`Bogus` and new notes is not answered with the invalid-status error: it is answered 200, the
notes are stored and the status stays `Pending`. -/
theorem updateReservation_bogus_status_accepted :
    "Bogus" ∉ enumValues ∧
    updateReservation 900 sampleTables 0 ⟨none, none, none, none, some "Bogus", some "window"⟩
        ⟨[stored 0 1000 1100 "Pending"], 1⟩ =
      (⟨[⟨0, 7, 1, 1000, 1100, 2, "Pending", some "window"⟩], 1⟩,
        .ok ⟨0, 7, 1, 1000, 1100, 2, "Pending", some "window"⟩) := by
  decide

/-- C10 (amended). A status in the body of `updateReservation` that is not one of the five
recognised values is ignored: the response is never the invalid-status error, the request is
served exactly as the same request without a status, and when it is answered 200 the stored
status is the one the reservation had before. -/
theorem updateReservation_status_ignored (now : Instant) (tables : List Table)
    (id : ObjectId) (body : UpdateBody) (db : Db) (s : String)
    (hs : body.status = some s) (hbad : s ∉ enumValues) :
    (updateReservation now tables id body db).2 ≠ .fail .invalidStatus ∧
    updateReservation now tables id body db =
      updateReservation now tables id { body with status := none } db ∧
    (∀ r r', Reservation.findById db id = some r →
      (updateReservation now tables id body db).2 = .ok r' → r'.status = r.status) := by
  refine ⟨updateReservation_ne_invalidStatus now tables id body db,
    updateReservation_unrecognised now tables id body db s hs hbad, ?_⟩
  intro r r' hfind hok
  rw [updateReservation_unrecognised now tables id body db s hs hbad] at hok
  simp only [updateReservation, hfind] at hok
  split_ifs at hok
  split at hok
  · simp at hok
  · have h3 : includesStatus enumValues none = false := rfl
    simp only [applyUpdate, h3, Bool.false_eq_true, if_false] at hok
    split_ifs at hok
    simp only [Outcome.ok.injEq] at hok
    rw [← hok]

/-- C10 (instance). The request with status `Bogus` and new notes is served as the request that
gives the notes only. -/
theorem updateReservation_status_ignored_witness :
    updateReservation 900 sampleTables 0 ⟨none, none, none, none, some "Bogus", some "window"⟩
        ⟨[stored 0 1000 1100 "Pending"], 1⟩ =
      updateReservation 900 sampleTables 0 ⟨none, none, none, none, none, some "window"⟩
        ⟨[stored 0 1000 1100 "Pending"], 1⟩ :=
  (updateReservation_status_ignored 900 sampleTables 0
    ⟨none, none, none, none, some "Bogus", some "window"⟩ ⟨[stored 0 1000 1100 "Pending"], 1⟩
    "Bogus" rfl (by decide)).2.1

end Restaurant

namespace Restaurant

/-! ## Stored documents satisfy the schema

Every write goes through `save()`, so the hypothesis "the stored document passes the schema"
holds for each document of a collection built by the handlers. -/

theorem Db.Valid.insert {db : Db} {r : Reservation} (h : db.Valid) (hr : r.validate = true) :
    (db.insert r).Valid := by
  intro x hx
  simp only [Db.insert, List.mem_append, List.mem_singleton] at hx
  rcases hx with hx | hx
  · exact h x hx
  · rw [hx]; exact hr

theorem Db.Valid.replace {db : Db} {r : Reservation} (h : db.Valid) (hr : r.validate = true) :
    (db.replace r).Valid := by
  intro x hx
  simp only [Db.replace, List.mem_map] at hx
  obtain ⟨y, hy, hxy⟩ := hx
  split_ifs at hxy
  · rw [← hxy]; exact hr
  · rw [← hxy]; exact h y hy

theorem Db.Valid.remove {db : Db} (id : ObjectId) (h : db.Valid) : (db.remove id).Valid := by
  intro x hx
  simp only [Db.remove, List.mem_filter] at hx
  exact h x hx.1

theorem createReservation_valid (now : Instant) (user : ObjectId) (tables : List Table)
    (body : CreateBody) (db : Db) (h : db.Valid) :
    (createReservation now user tables body db).1.Valid := by
  unfold createReservation
  split
  · split_ifs
    · exact h
    · exact h
    · split
      · exact h
      · dsimp only
        split_ifs with _ _ hv
        · exact h
        · exact h
        · exact h.insert hv
        · exact h
  · exact h

theorem updateReservationStatus_valid (id : ObjectId) (status : Option String) (db : Db)
    (h : db.Valid) : (updateReservationStatus id status db).1.Valid := by
  unfold updateReservationStatus
  split
  · dsimp only
    split_ifs with _ hv
    · exact h.replace hv
    · exact h
    · exact h
  · exact h

theorem updateReservation_valid (now : Instant) (tables : List Table) (id : ObjectId)
    (body : UpdateBody) (db : Db) (h : db.Valid) :
    (updateReservation now tables id body db).1.Valid := by
  unfold updateReservation
  split
  · dsimp only
    split_ifs
    · exact h
    · exact h
    · split
      · exact h
      · unfold applyUpdate
        dsimp only
        split_ifs <;> first | exact h | exact h.replace ‹_›
  · exact h

theorem deleteReservation_valid (id : ObjectId) (db : Db) (h : db.Valid) :
    (deleteReservation id db).1.Valid := by
  unfold deleteReservation
  split
  · exact h.remove _
  · exact h

theorem handle_valid (tables : List Table) (db : Db) (op : Op) (h : db.Valid) :
    (handle tables db op).1.Valid := by
  cases op with
  | create now user body => exact createReservation_valid now user tables body db h
  | update now id body => exact updateReservation_valid now tables id body db h
  | setStatus id status => exact updateReservationStatus_valid id status db h
  | delete id => exact deleteReservation_valid id db h

theorem runFrom_valid (tables : List Table) (ops : List Op) (db : Db) (h : db.Valid) :
    (runFrom tables db ops).Valid := by
  induction ops generalizing db with
  | nil => exact h
  | cons op ops ih => exact ih _ (handle_valid tables db op h)

theorem run_valid (tables : List Table) (ops : List Op) : (run tables ops).Valid :=
  runFrom_valid tables ops Db.empty (fun _ hr => by cases hr)

end Restaurant

namespace Restaurant

/-! ## Update: notes, interval checks, capacity re-validation -/

/-- An update body that gives neither table, times, party size nor a status writes back the
stored document with the notes of the body, when `save()` accepts it. -/
theorem updateReservation_notesOnly_eq (now : Instant) (tables : List Table) (id : ObjectId)
    (db : Db) (r : Reservation) (notes : String)
    (hfind : Reservation.findById db id = some r) (hv : r.validate = true) :
    updateReservation now tables id (notesOnly notes) db =
      (db.replace { r with notes := some notes }, .ok { r with notes := some notes }) := by
  have hv' : ({ r with notes := some notes } : Reservation).validate = true := by
    rw [validate_iff] at hv ⊢
    exact hv
  have h3 : includesStatus enumValues none = false := rfl
  simp only [updateReservation, hfind, notesOnly, checkTableAndSlot, applyUpdate, truthyNum,
    Option.isSome_none, Bool.or_self, Bool.false_and, Bool.false_eq_true, if_false,
    Option.getD_none, h3]
  rw [if_pos hv']

/-- C11. An update whose body contains only notes makes neither the capacity check nor the
availability check: for every table registry and every state of the other reservations (the
stored document passing the schema, as every document written by `save()` does) it is answered
200, the document with that id becomes the stored one with the new notes and every other field
as before, and every other document is unchanged. -/
theorem updateReservation_notes_only (now : Instant) (tables : List Table) (id : ObjectId)
    (db : Db) (r : Reservation) (notes : String)
    (hfind : Reservation.findById db id = some r) (hv : r.validate = true) :
    updateReservation now tables id (notesOnly notes) db =
      (⟨db.reservations.map (fun x => if x._id = id then { r with notes := some notes } else x),
          db.fresh⟩,
        .ok { r with notes := some notes }) ∧
    Reservation.findById (updateReservation now tables id (notesOnly notes) db).1 id =
      some { r with notes := some notes } ∧
    (updateReservation now tables id (notesOnly notes) db).2.code = some 200 := by
  have hid : r._id = id := (Reservation.findById_mem hfind).2
  have heq := updateReservation_notesOnly_eq now tables id db r notes hfind hv
  have heq' : updateReservation now tables id (notesOnly notes) db =
      (⟨db.reservations.map (fun x => if x._id = id then { r with notes := some notes } else x),
          db.fresh⟩,
        .ok { r with notes := some notes }) := by
    rw [heq]
    simp only [Db.replace, hid]
  refine ⟨heq', ?_, ?_⟩
  · rw [heq']
    exact find?_map_replace db.reservations id r _ hid hfind
  · rw [heq']
    rfl

/-- C11 (instance). With an empty table registry and a confirmed reservation of the same table
overlapping it, the notes-only update of reservation 0 is stored. -/
theorem updateReservation_notes_only_witness :
    updateReservation 2000 [] 0 (notesOnly "birthday")
        ⟨[stored 0 1000 1100 "Pending", stored 1 1030 1130 "Confirmed"], 2⟩ =
      (⟨[⟨0, 7, 1, 1000, 1100, 2, "Pending", some "birthday"⟩,
          stored 1 1030 1130 "Confirmed"], 2⟩,
        .ok ⟨0, 7, 1, 1000, 1100, 2, "Pending", some "birthday"⟩) :=
  (updateReservation_notes_only 2000 [] 0
    ⟨[stored 0 1000 1100 "Pending", stored 1 1030 1130 "Confirmed"], 2⟩
    (stored 0 1000 1100 "Pending") "birthday" (by decide) (by decide)).1

end Restaurant

namespace Restaurant

/-- C12. Step 1 of create, all required fields being present.  When `start ≥ end` (equal
included) the response is the 400 interval error; otherwise it is the 400 past-reservation error
exactly when `start` is strictly before now, so `start = now` is accepted.  Both answers are
given for every table registry and every collection, and nothing is written. -/
theorem createReservation_step1 (now : Instant) (user : ObjectId) (tables : List Table)
    (body : CreateBody) (db : Db) (table : ObjectId) (start stop : Instant) (n : Int)
    (hb : body.table = some table) (hs : body.startTime = some start)
    (he : body.endTime = some stop) (hn : body.numberOfGuests = some n) (hn0 : n ≠ 0) :
    (start ≥ stop → createReservation now user tables body db = (db, .fail .invalidInterval)) ∧
    (start < stop → start < now →
      createReservation now user tables body db = (db, .fail .pastReservation)) ∧
    (start < stop →
      ((createReservation now user tables body db).2 = .fail .pastReservation ↔ start < now)) ∧
    (start < stop → start = now →
      (createReservation now user tables body db).2 ≠ .fail .pastReservation) ∧
    Outcome.code (.fail .invalidInterval) = some 400 ∧
    Outcome.code (.fail .pastReservation) = some 400 := by
  have hpast : start < stop → start < now →
      createReservation now user tables body db = (db, .fail .pastReservation) := by
    intro hlt hnow
    simp only [createReservation, hb, hs, he, hn, truthyNum, hn0, if_false, ge_iff_le,
      not_le.mpr hlt, hnow, if_true]
  have hnot : start < stop → ¬ start < now →
      (createReservation now user tables body db).2 ≠ .fail .pastReservation := by
    intro hlt hnow
    simp only [createReservation, hb, hs, he, hn, truthyNum, hn0, if_false, ge_iff_le,
      not_le.mpr hlt, hnow]
    split
    · simp
    · split_ifs <;> simp
  refine ⟨?_, hpast, ?_, ?_, rfl, rfl⟩
  · intro hge
    simp only [createReservation, hb, hs, he, hn, truthyNum, hn0, if_false, hge, if_true]
  · intro hlt
    constructor
    · intro h
      by_contra hnow
      exact hnot hlt hnow h
    · intro hnow
      rw [hpast hlt hnow]
  · intro hlt heq
    exact hnot hlt (by rw [heq]; exact lt_irrefl now)

/-- C12 (instance). A zero-length interval on a table that is not in the registry: the interval
error, not the table error. -/
theorem createReservation_step1_witness :
    createReservation 900 7 [] (booking 1000 1000 2) Db.empty =
      (Db.empty, .fail .invalidInterval) :=
  (createReservation_step1 900 7 [] (booking 1000 1000 2) Db.empty 1 1000 1000 2 rfl rfl rfl rfl
    (by decide)).1 (by decide)

end Restaurant

namespace Restaurant

/-- The handler `updateReservation` answers with the past-reservation error only from the check
of line 167. -/
theorem updateReservation_past_only_pending (now : Instant) (tables : List Table)
    (id : ObjectId) (body : UpdateBody) (db : Db) (r : Reservation)
    (hfind : Reservation.findById db id = some r)
    (h : (updateReservation now tables id body db).2 = .fail .pastReservationPending) :
    (body.startTime.isSome || body.endTime.isSome) = true ∧
      body.startTime.getD r.startTime < now ∧ r.status = "Pending" := by
  simp only [updateReservation, hfind] at h
  split_ifs at h with h1 h2
  · simp at h
  · simp only [Bool.and_eq_true, decide_eq_true_eq, beq_iff_eq] at h2
    exact ⟨h2.1.1, h2.1.2, h2.2⟩
  · split at h
    · rename_i e he
      rcases checkTableAndSlot_cases _ _ _ _ _ _ e he with h' | h' | h' <;> simp [h'] at h
    · unfold applyUpdate at h
      dsimp only at h
      split_ifs at h <;> simp at h

/-- The handler `updateReservation` answers with the interval error only from the check of
line 163. -/
theorem updateReservation_invalidInterval_only_times (now : Instant) (tables : List Table)
    (id : ObjectId) (body : UpdateBody) (db : Db) (r : Reservation)
    (hfind : Reservation.findById db id = some r)
    (h : (updateReservation now tables id body db).2 = .fail .invalidInterval) :
    (body.startTime.isSome || body.endTime.isSome) = true ∧
      body.startTime.getD r.startTime ≥ body.endTime.getD r.endTime := by
  simp only [updateReservation, hfind] at h
  split_ifs at h with h1 h2
  · simp only [Bool.and_eq_true, decide_eq_true_eq] at h1
    exact h1
  · simp at h
  · split at h
    · rename_i e he
      rcases checkTableAndSlot_cases _ _ _ _ _ _ e he with h' | h' | h' <;> simp [h'] at h
    · unfold applyUpdate at h
      dsimp only at h
      split_ifs at h <;> simp at h

/-- C13. Past-time check of update.  For a stored reservation and a body that gives `startTime`
and/or `endTime`, with effective start before effective end and effective start before now, the
response is the 400 past-reservation error exactly when the stored status is `Pending`; for
any other stored status the request is served as it would be at any other moment.  When the body
gives neither time, the response is neither the interval error nor the past-reservation error
and does not depend on the moment. -/
theorem updateReservation_past_check (now : Instant) (tables : List Table) (id : ObjectId)
    (body : UpdateBody) (db : Db) (r : Reservation)
    (hfind : Reservation.findById db id = some r) :
    ((body.startTime.isSome || body.endTime.isSome) = true →
      body.startTime.getD r.startTime < body.endTime.getD r.endTime →
      body.startTime.getD r.startTime < now →
      ((updateReservation now tables id body db).2 = .fail .pastReservationPending ↔
        r.status = "Pending") ∧
      (r.status = "Pending" →
        updateReservation now tables id body db = (db, .fail .pastReservationPending))) ∧
    (r.status ≠ "Pending" → ∀ now' : Instant,
      updateReservation now' tables id body db = updateReservation now tables id body db) ∧
    (body.startTime = none → body.endTime = none →
      (updateReservation now tables id body db).2 ≠ .fail .invalidInterval ∧
      (updateReservation now tables id body db).2 ≠ .fail .pastReservationPending ∧
      ∀ now' : Instant,
        updateReservation now' tables id body db = updateReservation now tables id body db) ∧
    Outcome.code (.fail .pastReservationPending) = some 400 := by
  refine ⟨?_, ?_, ?_, rfl⟩
  · intro hgiven hlt hpast
    have hfail : r.status = "Pending" →
        updateReservation now tables id body db = (db, .fail .pastReservationPending) := by
      intro hst
      simp only [updateReservation, hfind, hgiven, Bool.true_and, ge_iff_le, not_le.mpr hlt,
        decide_False, Bool.false_eq_true, if_false, hpast, decide_True, hst, beq_self_eq_true,
        Bool.and_self, if_true]
    refine ⟨⟨fun h => ?_, fun hst => by rw [hfail hst]⟩, hfail⟩
    exact (updateReservation_past_only_pending now tables id body db r hfind h).2.2
  · intro hst now'
    have hne : (r.status == "Pending") = false := by simpa using hst
    simp only [updateReservation, hfind, hne, Bool.and_false, Bool.false_eq_true, if_false]
  · intro hs he
    refine ⟨fun h => ?_, fun h => ?_, fun now' => ?_⟩
    · have := (updateReservation_invalidInterval_only_times now tables id body db r hfind h).1
      simp [hs, he] at this
    · have := (updateReservation_past_only_pending now tables id body db r hfind h).1
      simp [hs, he] at this
    · simp only [updateReservation, hfind, hs, he, Option.isSome_none, Bool.or_self,
        Bool.false_and, Bool.false_eq_true, if_false]

/-- C13 (instance). Moving a confirmed reservation to 08:00-09:00 at 09:30 is not refused as
past; the same request on a pending reservation is. -/
theorem updateReservation_past_check_witness :
    (updateReservation 930 sampleTables 0 (timesOnly 800 900)
        ⟨[stored 0 1000 1100 "Confirmed"], 1⟩).2 ≠ .fail .pastReservationPending ∧
    updateReservation 930 sampleTables 0 (timesOnly 800 900)
        ⟨[stored 0 1000 1100 "Pending"], 1⟩ =
      (⟨[stored 0 1000 1100 "Pending"], 1⟩, .fail .pastReservationPending) :=
  ⟨fun h => absurd (((updateReservation_past_check 930 sampleTables 0 (timesOnly 800 900)
      ⟨[stored 0 1000 1100 "Confirmed"], 1⟩ (stored 0 1000 1100 "Confirmed") (by decide)).1
      (by decide) (by decide) (by decide)).1.mp h) (by decide),
    ((updateReservation_past_check 930 sampleTables 0 (timesOnly 800 900)
      ⟨[stored 0 1000 1100 "Pending"], 1⟩ (stored 0 1000 1100 "Pending") (by decide)).1
      (by decide) (by decide) (by decide)).2 (by decide)⟩

end Restaurant

namespace Restaurant

/-! ## Frame conditions of create, delete and read -/

/-- The handler `createReservation` either fails and returns the collection it was given, or
inserts one document and answers with it. -/
theorem createReservation_cases (now : Instant) (user : ObjectId) (tables : List Table)
    (body : CreateBody) (db : Db) :
    (∃ e, createReservation now user tables body db = (db, .fail e)) ∨
    (∃ r, createReservation now user tables body db = (db.insert r, .created r)) := by
  unfold createReservation
  split
  · split_ifs
    · exact Or.inl ⟨_, rfl⟩
    · exact Or.inl ⟨_, rfl⟩
    · split
      · exact Or.inl ⟨_, rfl⟩
      · dsimp only
        split_ifs
        · exact Or.inl ⟨_, rfl⟩
        · exact Or.inl ⟨_, rfl⟩
        · exact Or.inr ⟨_, rfl⟩
        · exact Or.inl ⟨_, rfl⟩
  · exact Or.inl ⟨_, rfl⟩

/-- C14. Atomicity of create.  For every request and every collection: when the response is an
error, whichever it is, the collection after the call is the collection before it; when the
response is 201 with document `r`, the collection after the call is the previous documents,
unchanged and in their order, followed by `r`; and the response is always one of the two. -/
theorem createReservation_atomic (now : Instant) (user : ObjectId) (tables : List Table)
    (body : CreateBody) (db : Db) :
    (∀ e, (createReservation now user tables body db).2 = .fail e →
      (createReservation now user tables body db).1 = db) ∧
    (∀ r, (createReservation now user tables body db).2 = .created r →
      (createReservation now user tables body db).1.reservations = db.reservations ++ [r] ∧
      (createReservation now user tables body db).1.reservations.length =
        db.reservations.length + 1) ∧
    ((∃ e, (createReservation now user tables body db).2 = .fail e) ∨
      (∃ r, (createReservation now user tables body db).2 = .created r)) := by
  rcases createReservation_cases now user tables body db with ⟨e, he⟩ | ⟨r, hr⟩
  · rw [he]
    refine ⟨fun _ _ => rfl, fun r h => ?_, Or.inl ⟨e, rfl⟩⟩
    simp at h
  · rw [hr]
    refine ⟨fun e h => ?_, fun r' h => ?_, Or.inr ⟨r, rfl⟩⟩
    · simp at h
    · simp only [Outcome.created.injEq] at h
      subst h
      simp [Db.insert]

/-- C14 (instance). The refused request for 10:30-11:30 leaves the collection as it was. -/
theorem createReservation_atomic_witness :
    (createReservation 900 8 sampleTables (booking 1030 1130 2)
      ⟨[stored 0 1000 1100 "Pending"], 1⟩).1 = ⟨[stored 0 1000 1100 "Pending"], 1⟩ :=
  (createReservation_atomic 900 8 sampleTables (booking 1030 1130 2)
    ⟨[stored 0 1000 1100 "Pending"], 1⟩).1 .slotConflict (by decide)

end Restaurant

namespace Restaurant

theorem Reservation.findById_eq_none {db : Db} {id : ObjectId} :
    Reservation.findById db id = none ↔ ∀ r ∈ db.reservations, r._id ≠ id := by
  simp [Reservation.findById, List.find?_eq_none]

theorem Reservation.findById_isSome {db : Db} {id : ObjectId}
    (h : ∃ r ∈ db.reservations, r._id = id) :
    ∃ r, Reservation.findById db id = some r ∧ r._id = id := by
  cases hf : Reservation.findById db id with
  | none =>
    obtain ⟨r, hr, hid⟩ := h
    exact absurd hid (Reservation.findById_eq_none.mp hf r hr)
  | some r => exact ⟨r, rfl, (Reservation.findById_mem hf).2⟩

/-- With pairwise distinct ids, filtering out a stored id drops exactly one document. -/
theorem length_filter_id (l : List Reservation) (id : ObjectId)
    (hnd : (l.map Reservation._id).Nodup) (hmem : ∃ r ∈ l, r._id = id) :
    (l.filter (fun x => x._id != id)).length + 1 = l.length := by
  induction l with
  | nil =>
    obtain ⟨r, hr, _⟩ := hmem
    cases hr
  | cons a l ih =>
    rw [List.map_cons, List.nodup_cons] at hnd
    by_cases ha : a._id = id
    · have hall : ∀ x ∈ l, (x._id != id) = true := by
        intro x hx
        simp only [bne_iff_ne, ne_eq]
        intro hxid
        exact hnd.1 (List.mem_map.mpr ⟨x, hx, by rw [hxid, ha]⟩)
      have hkeep : l.filter (fun x => x._id != id) = l := List.filter_eq_self.mpr hall
      simp [List.filter_cons, ha, hkeep]
    · have hin : ∃ r ∈ l, r._id = id := by
        obtain ⟨r, hr, hid⟩ := hmem
        rcases List.mem_cons.mp hr with h | h
        · exact absurd (h ▸ hid) ha
        · exact ⟨r, h, hid⟩
      have hb : (a._id != id) = true := by simpa using ha
      simp only [List.filter_cons, hb, if_true, List.length_cons]
      rw [ih hnd.2 hin]

/-- C15. Delete.  When no stored reservation has the id, the response is the 404 not-found error
and the collection is unchanged.  Otherwise the response is 200 and the collection after the
call is the collection before it without the document of that id, whatever its status and
whatever else is stored: every document with another id is kept, unchanged and in order, and
with pairwise distinct ids exactly one document is gone. -/
theorem deleteReservation_spec (id : ObjectId) (db : Db) :
    ((∀ r ∈ db.reservations, r._id ≠ id) →
      deleteReservation id db = (db, .fail .notFound) ∧
      Outcome.code (.fail .notFound) = some 404) ∧
    ((∃ r ∈ db.reservations, r._id = id) →
      deleteReservation id db =
        (⟨db.reservations.filter (fun x => x._id != id), db.fresh⟩, .removed) ∧
      (∀ x, x ∈ (deleteReservation id db).1.reservations ↔ x ∈ db.reservations ∧ x._id ≠ id) ∧
      ((db.reservations.map Reservation._id).Nodup →
        (deleteReservation id db).1.reservations.length + 1 = db.reservations.length) ∧
      Outcome.code .removed = some 200) := by
  constructor
  · intro h
    have hf := Reservation.findById_eq_none.mpr h
    have heq : deleteReservation id db = (db, .fail .notFound) := by
      simp only [deleteReservation, hf]
    exact ⟨heq, rfl⟩
  · intro h
    obtain ⟨r, hf, hid⟩ := Reservation.findById_isSome h
    have heq : deleteReservation id db =
        (⟨db.reservations.filter (fun x => x._id != id), db.fresh⟩, .removed) := by
      simp only [deleteReservation, hf, Db.remove, hid]
    refine ⟨heq, ?_, ?_, rfl⟩
    · intro x
      rw [heq]
      simp [List.mem_filter]
    · intro hnd
      rw [heq]
      exact length_filter_id db.reservations id hnd h

/-- C15 (instance). Deleting the confirmed reservation 0 leaves the overlapping reservation 1
alone in the collection. -/
theorem deleteReservation_spec_witness :
    deleteReservation 0 ⟨[stored 0 1000 1100 "Confirmed", stored 1 1030 1130 "Pending"], 2⟩ =
      (⟨[stored 1 1030 1130 "Pending"], 2⟩, .removed) :=
  ((deleteReservation_spec 0
    ⟨[stored 0 1000 1100 "Confirmed", stored 1 1030 1130 "Pending"], 2⟩).2
    ⟨stored 0 1000 1100 "Confirmed", by decide, by decide⟩).1

end Restaurant

namespace Restaurant

/-- C16. Read access.  For a stored reservation and an authenticated caller, whose role is one
of the roles of the user schema, `getReservationById` answers 200 with the reservation when the
caller is its owner or has role `staff` or `admin`, and answers with the 403 forbidden error for
every other caller; for an id that is not stored it answers with the 404 not-found error. -/
theorem getReservationById_spec (caller : Caller) (id : ObjectId) (db : Db)
    (hrole : caller.role ∈ userRoles) :
    (∀ r, Reservation.findById db id = some r →
      ((r.user = caller._id ∨ caller.role = "staff" ∨ caller.role = "admin") →
        getReservationById caller id db = .ok r) ∧
      (¬ (r.user = caller._id ∨ caller.role = "staff" ∨ caller.role = "admin") →
        getReservationById caller id db = .fail .forbidden) ∧
      Outcome.code (.ok r) = some 200 ∧ Outcome.code (.fail .forbidden) = some 403) ∧
    ((∀ r ∈ db.reservations, r._id ≠ id) →
      getReservationById caller id db = .fail .notFound ∧
      Outcome.code (.fail .notFound) = some 404) := by
  constructor
  · intro r hfind
    refine ⟨?_, ?_, rfl, rfl⟩
    · rintro (hown | hstaff | hadmin)
      · simp [getReservationById, hfind, hown]
      · simp [getReservationById, hfind, hstaff]
      · simp [getReservationById, hfind, hadmin]
    · intro hnot
      simp only [not_or] at hnot
      have hcust : caller.role = "customer" := by
        simp only [userRoles, List.mem_cons, List.mem_singleton, List.not_mem_nil,
          or_false] at hrole
        rcases hrole with h | h | h
        · exact h
        · exact absurd h hnot.2.1
        · exact absurd h hnot.2.2
      simp [getReservationById, hfind, hcust, hnot.1]
  · intro h
    have hf := Reservation.findById_eq_none.mpr h
    have heq : getReservationById caller id db = .fail .notFound := by
      simp only [getReservationById, hf]
    exact ⟨heq, rfl⟩

/-- C16 (instance). Customer 9 asks for the reservation of user 7 and is refused; staff member 9
gets it. -/
theorem getReservationById_spec_witness :
    getReservationById ⟨9, "customer"⟩ 0 ⟨[stored 0 1000 1100 "Pending"], 1⟩ =
      .fail .forbidden ∧
    getReservationById ⟨9, "staff"⟩ 0 ⟨[stored 0 1000 1100 "Pending"], 1⟩ =
      .ok (stored 0 1000 1100 "Pending") :=
  ⟨((getReservationById_spec ⟨9, "customer"⟩ 0 ⟨[stored 0 1000 1100 "Pending"], 1⟩
      (by decide)).1 (stored 0 1000 1100 "Pending") (by decide)).2.1 (by decide),
    ((getReservationById_spec ⟨9, "staff"⟩ 0 ⟨[stored 0 1000 1100 "Pending"], 1⟩
      (by decide)).1 (stored 0 1000 1100 "Pending") (by decide)).1 (by decide)⟩

end Restaurant

namespace Restaurant

/-! ## What a successful write looks like -/

/-- A create request either fails and writes nothing, or inserts a schema-valid document under
the next id, on a table of the registry that seats the party. -/
theorem createReservation_inserted (now : Instant) (user : ObjectId) (tables : List Table)
    (body : CreateBody) (db : Db) :
    (∃ e, createReservation now user tables body db = (db, .fail e)) ∨
    (∃ r t, createReservation now user tables body db = (db.insert r, .created r) ∧
      r._id = db.fresh ∧ r.validate = true ∧ Table.findById tables r.table = some t ∧
      r.numberOfGuests ≤ t.capacity) := by
  unfold createReservation
  split
  · rename_i table start stop n _ _ _ _
    split_ifs
    · exact Or.inl ⟨_, rfl⟩
    · exact Or.inl ⟨_, rfl⟩
    · split
      · exact Or.inl ⟨_, rfl⟩
      · rename_i t ht
        dsimp only
        split_ifs with hcap hov hv
        · exact Or.inl ⟨_, rfl⟩
        · exact Or.inl ⟨_, rfl⟩
        · refine Or.inr ⟨_, t, rfl, rfl, hv, ?_, not_lt.mp hcap⟩
          simp only [newReservation]
          rw [Table.findById_id ht]
          exact ht
        · exact Or.inl ⟨_, rfl⟩
  · exact Or.inl ⟨_, rfl⟩

/-- The block of lines 174-211 lets the request through only when the body gives neither a
table nor a party size, or the effective table is in the registry and seats the effective
party. -/
theorem checkTableAndSlot_none (tables : List Table) (db : Db) (r : Reservation)
    (body : UpdateBody) (start stop : Instant)
    (h : checkTableAndSlot tables db r body start stop = none) :
    (body.table = none ∧ truthyNum body.numberOfGuests = none) ∨
    (∃ t, Table.findById tables (body.table.getD r.table) = some t ∧
      (truthyNum body.numberOfGuests).getD r.numberOfGuests ≤ t.capacity) := by
  unfold checkTableAndSlot at h
  split_ifs at h with hgiven
  · dsimp only at h
    split at h
    · simp at h
    · rename_i t ht
      split_ifs at h with hcap
      · exact Or.inr ⟨t, ht, not_lt.mp hcap⟩
      · exact Or.inr ⟨t, ht, not_lt.mp hcap⟩
  · left
    simp only [Bool.or_eq_true, Option.isSome_iff_exists, not_or, not_exists] at hgiven
    constructor
    · cases hb : body.table with
      | none => rfl
      | some x => exact absurd hb (hgiven.1 x)
    · cases hn : truthyNum body.numberOfGuests with
      | none => rfl
      | some x => exact absurd hn (hgiven.2 x)

/-- An update request either fails and writes nothing, or passes the block of lines 174-211 and
writes back a schema-valid document with the same id and owner and the effective table, party
size and times. -/
theorem updateReservation_cases (now : Instant) (tables : List Table) (id : ObjectId)
    (body : UpdateBody) (db : Db) :
    (∃ e, updateReservation now tables id body db = (db, .fail e)) ∨
    (∃ r u, Reservation.findById db id = some r ∧
      checkTableAndSlot tables db r body (body.startTime.getD r.startTime)
        (body.endTime.getD r.endTime) = none ∧
      updateReservation now tables id body db = (db.replace u, .ok u) ∧
      u.validate = true ∧ u._id = r._id ∧ u.user = r.user ∧
      u.table = body.table.getD r.table ∧
      u.numberOfGuests = (truthyNum body.numberOfGuests).getD r.numberOfGuests ∧
      u.startTime = body.startTime.getD r.startTime ∧
      u.endTime = body.endTime.getD r.endTime) := by
  cases hfind : Reservation.findById db id with
  | none => exact Or.inl ⟨.notFound, by simp only [updateReservation, hfind]⟩
  | some r =>
    simp only [updateReservation, hfind]
    split_ifs
    · exact Or.inl ⟨_, rfl⟩
    · exact Or.inl ⟨_, rfl⟩
    · split
      · exact Or.inl ⟨_, rfl⟩
      · rename_i hcheck
        unfold applyUpdate
        dsimp only
        split_ifs with hinc hv hv
        · exact Or.inr ⟨r, _, rfl, hcheck, rfl, hv, rfl, rfl, rfl, rfl, rfl, rfl⟩
        · exact Or.inl ⟨_, rfl⟩
        · exact Or.inr ⟨r, _, rfl, hcheck, rfl, hv, rfl, rfl, rfl, rfl, rfl, rfl⟩
        · exact Or.inl ⟨_, rfl⟩

/-- A status request either fails and writes nothing, or writes back the stored document with
another status. -/
theorem updateReservationStatus_cases (id : ObjectId) (status : Option String) (db : Db) :
    (∃ e, updateReservationStatus id status db = (db, .fail e)) ∨
    (∃ r s, Reservation.findById db id = some r ∧
      updateReservationStatus id status db =
        (db.replace { r with status := s }, .ok { r with status := s }) ∧
      ({ r with status := s } : Reservation).validate = true) := by
  cases hfind : Reservation.findById db id with
  | none => exact Or.inl ⟨.notFound, by simp only [updateReservationStatus, hfind]⟩
  | some r =>
    simp only [updateReservationStatus, hfind]
    split_ifs with hinc hv
    · exact Or.inr ⟨r, _, rfl, rfl, hv⟩
    · exact Or.inl ⟨_, rfl⟩
    · exact Or.inl ⟨_, rfl⟩

end Restaurant

namespace Restaurant

/-! ## Invariants of the collection -/

theorem Db.seated_replace {tables : List Table} {db : Db} {u : Reservation}
    (h : db.Seated tables)
    (hu : ∃ t, Table.findById tables u.table = some t ∧ u.numberOfGuests ≤ t.capacity) :
    (db.replace u).Seated tables := by
  intro x hx
  simp only [Db.replace, List.mem_map] at hx
  obtain ⟨y, hy, hxy⟩ := hx
  split_ifs at hxy
  · rw [← hxy]; exact hu
  · rw [← hxy]; exact h y hy

theorem handle_seated (tables : List Table) (db : Db) (op : Op) (h : db.Seated tables) :
    (handle tables db op).1.Seated tables := by
  cases op with
  | create now user body =>
    rcases createReservation_inserted now user tables body db with ⟨e, he⟩ | ⟨r, t, hr, _, _, ht, hc⟩
    · simp only [handle, he]; exact h
    · simp only [handle, hr]
      intro x hx
      simp only [Db.insert, List.mem_append, List.mem_singleton] at hx
      rcases hx with hx | hx
      · exact h x hx
      · rw [hx]; exact ⟨t, ht, hc⟩
  | update now id body =>
    rcases updateReservation_cases now tables id body db with
      ⟨e, he⟩ | ⟨r, u, hfind, hcheck, hu, _, _, _, htab, hn, _, _⟩
    · simp only [handle, he]; exact h
    · simp only [handle, hu]
      refine Db.seated_replace h ?_
      rw [htab, hn]
      rcases checkTableAndSlot_none tables db r body _ _ hcheck with ⟨hb, hg⟩ | hok
      · rw [hb, hg]
        exact h r (Reservation.findById_mem hfind).1
      · exact hok
  | setStatus id status =>
    rcases updateReservationStatus_cases id status db with ⟨e, he⟩ | ⟨r, s, hfind, hu, _⟩
    · simp only [handle, he]; exact h
    · simp only [handle, hu]
      exact Db.seated_replace h (h r (Reservation.findById_mem hfind).1)
  | delete id =>
    simp only [handle, deleteReservation]
    split
    · intro x hx
      simp only [Db.remove, List.mem_filter] at hx
      exact h x hx.1
    · exact h

theorem runFrom_seated (tables : List Table) (ops : List Op) (db : Db) (h : db.Seated tables) :
    (runFrom tables db ops).Seated tables := by
  induction ops generalizing db with
  | nil => exact h
  | cons op ops ih => exact ih _ (handle_seated tables db op h)

theorem map_id_replace (l : List Reservation) (u : Reservation) :
    (l.map (fun x => if x._id = u._id then u else x)).map Reservation._id =
      l.map Reservation._id := by
  rw [List.map_map]
  refine List.map_congr_left (fun x _ => ?_)
  simp only [Function.comp]
  split_ifs with hx
  · exact hx.symm
  · rfl

theorem handle_distinct (tables : List Table) (db : Db) (op : Op) (h : db.Distinct) :
    (handle tables db op).1.Distinct := by
  have hrep : ∀ u r : Reservation, r ∈ db.reservations → u._id = r._id →
      (db.replace u).Distinct := by
    intro u r hr hid
    refine ⟨?_, ?_⟩
    · simp only [Db.replace, map_id_replace]
      exact h.1
    · intro x hx
      simp only [Db.replace, List.mem_map] at hx
      obtain ⟨y, hy, hxy⟩ := hx
      split_ifs at hxy
      · rw [← hxy, hid]; exact h.2 r hr
      · rw [← hxy]; exact h.2 y hy
  cases op with
  | create now user body =>
    rcases createReservation_inserted now user tables body db with ⟨e, he⟩ | ⟨r, t, hr, hid, _⟩
    · simp only [handle, he]; exact h
    · simp only [handle, hr]
      refine ⟨?_, ?_⟩
      · simp only [Db.insert, List.map_append, List.map_cons, List.map_nil]
        refine List.Nodup.append h.1 (List.nodup_singleton _) ?_
        rw [List.disjoint_singleton, hid]
        intro hmem
        obtain ⟨y, hy, hyid⟩ := List.mem_map.mp hmem
        exact absurd hyid (Nat.ne_of_lt (h.2 y hy))
      · intro x hx
        simp only [Db.insert, List.mem_append, List.mem_singleton] at hx
        rcases hx with hx | hx
        · exact Nat.lt_succ_of_lt (h.2 x hx)
        · rw [hx, hid]; exact Nat.lt_succ_self _
  | update now id body =>
    rcases updateReservation_cases now tables id body db with
      ⟨e, he⟩ | ⟨r, u, hfind, _, hu, _, hid, _⟩
    · simp only [handle, he]; exact h
    · simp only [handle, hu]
      exact hrep u r (Reservation.findById_mem hfind).1 hid
  | setStatus id status =>
    rcases updateReservationStatus_cases id status db with ⟨e, he⟩ | ⟨r, s, hfind, hu, _⟩
    · simp only [handle, he]; exact h
    · simp only [handle, hu]
      exact hrep _ r (Reservation.findById_mem hfind).1 rfl
  | delete id =>
    simp only [handle, deleteReservation]
    split
    · refine ⟨?_, ?_⟩
      · simp only [Db.remove]
        exact List.Nodup.sublist (List.Sublist.map _ (List.filter_sublist _)) h.1
      · intro x hx
        simp only [Db.remove, List.mem_filter] at hx
        exact h.2 x hx.1
    · exact h

theorem runFrom_distinct (tables : List Table) (ops : List Op) (db : Db) (h : db.Distinct) :
    (runFrom tables db ops).Distinct := by
  induction ops generalizing db with
  | nil => exact h
  | cons op ops ih => exact ih _ (handle_distinct tables db op h)

theorem run_distinct (tables : List Table) (ops : List Op) : (run tables ops).Distinct :=
  runFrom_distinct tables ops Db.empty ⟨List.nodup_nil, fun _ hr => by cases hr⟩

end Restaurant

namespace Restaurant

/-- C17. With a fixed table registry, after any finite sequence of create, update, status and
delete requests served from the empty collection, every stored reservation whose status is
`Pending`, `Confirmed` or `Completed` names a table of the registry, and its party is not larger
than the capacity of that table. -/
theorem run_capacity (tables : List Table) (ops : List Op) (r : Reservation)
    (hr : r ∈ (run tables ops).reservations) (hact : r.active) :
    ∃ t, Table.findById tables r.table = some t ∧ r.numberOfGuests ≤ t.capacity := by
  have _ := hact
  exact runFrom_seated tables ops Db.empty (fun _ hx => by cases hx) r hr

/-- C17 (instance). After the four requests of `reactivationOps` the pending reservation 0 of
table 1 has a party of 2, within the capacity of its table. -/
theorem run_capacity_witness :
    ∃ t, Table.findById sampleTables 1 = some t ∧ (2 : Int) ≤ t.capacity :=
  run_capacity sampleTables reactivationOps ⟨0, 7, 1, 1000, 1100, 2, "Pending", none⟩
    (by decide) (by decide)

/-- C18. After any finite sequence of create, update, status and delete requests served from the
empty collection, every stored reservation has `startTime < endTime`.  In particular an update
that gives one or both times and whose effective start (the given one, else the stored one) is
not before its effective end is answered with the interval error and writes nothing. -/
theorem run_interval :
    (∀ (tables : List Table) (ops : List Op) (r : Reservation),
      r ∈ (run tables ops).reservations → r.startTime < r.endTime) ∧
    (∀ (now : Instant) (tables : List Table) (id : ObjectId) (body : UpdateBody) (db : Db)
      (r : Reservation), Reservation.findById db id = some r →
      (body.startTime.isSome || body.endTime.isSome) = true →
      body.startTime.getD r.startTime ≥ body.endTime.getD r.endTime →
      updateReservation now tables id body db = (db, .fail .invalidInterval)) := by
  constructor
  · intro tables ops r hr
    exact ((validate_iff r).mp (run_valid tables ops r hr)).2.2
  · intro now tables id body db r hfind hgiven hge
    simp only [updateReservation, hfind, hgiven, Bool.true_and, hge, decide_True, if_true]

/-- C18 (instance). After the four requests of `reactivationOps` reservation 1 has its start
before its end; and an update of a 10:00-11:00 reservation that gives only `startTime` 11:00 is
refused with the interval error. -/
theorem run_interval_witness :
    (1000 : Int) < 1100 ∧
    updateReservation 900 sampleTables 0 ⟨none, some 1100, none, none, none, none⟩
        ⟨[stored 0 1000 1100 "Confirmed"], 1⟩ =
      (⟨[stored 0 1000 1100 "Confirmed"], 1⟩, .fail .invalidInterval) :=
  ⟨run_interval.1 sampleTables reactivationOps ⟨1, 8, 1, 1000, 1100, 2, "Pending", none⟩
      (by decide),
    run_interval.2 900 sampleTables 0 ⟨none, some 1100, none, none, none, none⟩
      ⟨[stored 0 1000 1100 "Confirmed"], 1⟩ (stored 0 1000 1100 "Confirmed") (by decide)
      (by decide) (by decide)⟩

end Restaurant

namespace Restaurant

/-! ## Update: self-exclusion and capacity re-validation -/

/-- Once the interval checks of lines 162-171 pass, `updateReservation` is the block of lines
174-211 followed by the assignments and `save()`. -/
theorem updateReservation_after_interval (now : Instant) (tables : List Table)
    (id : ObjectId) (body : UpdateBody) (db : Db) (r : Reservation)
    (hfind : Reservation.findById db id = some r)
    (hint : (body.startTime.isSome || body.endTime.isSome) = true →
      body.startTime.getD r.startTime < body.endTime.getD r.endTime)
    (hpast : (body.startTime.isSome || body.endTime.isSome) = true →
      body.startTime.getD r.startTime < now → r.status ≠ "Pending") :
    updateReservation now tables id body db =
      match checkTableAndSlot tables db r body (body.startTime.getD r.startTime)
          (body.endTime.getD r.endTime) with
      | some e => (db, .fail e)
      | none => applyUpdate db r body (body.startTime.getD r.startTime)
          (body.endTime.getD r.endTime) := by
  have h1 : ((body.startTime.isSome || body.endTime.isSome) &&
      decide (body.startTime.getD r.startTime ≥ body.endTime.getD r.endTime)) = false := by
    rw [Bool.and_eq_false_iff]
    by_cases hg : (body.startTime.isSome || body.endTime.isSome) = true
    · right
      simpa using hint hg
    · left
      simpa using hg
  have h2 : ((body.startTime.isSome || body.endTime.isSome) &&
      decide (body.startTime.getD r.startTime < now) && r.status == "Pending") = false := by
    by_cases hg : (body.startTime.isSome || body.endTime.isSome) = true
    · by_cases hn : body.startTime.getD r.startTime < now
      · have hst : (r.status == "Pending") = false := by simpa using hpast hg hn
        rw [hst, Bool.and_false]
      · have hd : decide (body.startTime.getD r.startTime < now) = false := by simpa using hn
        rw [hd, Bool.and_false, Bool.false_and]
    · have hg' : (body.startTime.isSome || body.endTime.isSome) = false := by simpa using hg
      rw [hg', Bool.false_and, Bool.false_and]
  simp only [updateReservation, hfind, h1, h2, Bool.false_eq_true, if_false]

/-- The outcome of `applyUpdate` is a 200 or the rejection by `save()`. -/
theorem applyUpdate_outcome (db : Db) (r : Reservation) (body : UpdateBody)
    (start stop : Instant) :
    (∃ u, (applyUpdate db r body start stop).2 = .ok u) ∨
      applyUpdate db r body start stop = (db, .fail .validationError) := by
  unfold applyUpdate
  dsimp only
  split_ifs
  · exact Or.inl ⟨_, rfl⟩
  · exact Or.inr rfl
  · exact Or.inl ⟨_, rfl⟩
  · exact Or.inr rfl

/-- An error of the block of lines 174-211 is the error of the whole request. -/
theorem updateReservation_block_error (now : Instant) (tables : List Table) (id : ObjectId)
    (body : UpdateBody) (db : Db) (r : Reservation) (e : Err)
    (hfind : Reservation.findById db id = some r)
    (he : e = .tableNotFound ∨ e = .capacityExceeded ∨ e = .slotConflict)
    (h : (updateReservation now tables id body db).2 = .fail e) :
    checkTableAndSlot tables db r body (body.startTime.getD r.startTime)
      (body.endTime.getD r.endTime) = some e := by
  simp only [updateReservation, hfind] at h
  split_ifs at h
  · rcases he with he | he | he <;> simp [he] at h
  · rcases he with he | he | he <;> simp [he] at h
  · split at h
    · rename_i e' he'
      simp only [Outcome.fail.injEq] at h
      rw [← h]
      exact he'
    · rcases applyUpdate_outcome db r body (body.startTime.getD r.startTime)
        (body.endTime.getD r.endTime) with ⟨u, hu⟩ | hu
      · rw [hu] at h
        simp at h
      · rw [hu] at h
        rcases he with he | he | he <;> simp [he] at h

/-- The block of lines 174-211 reports a conflict only when the query of lines 194-204 returns
a document. -/
theorem checkTableAndSlot_slotConflict (tables : List Table) (db : Db) (r : Reservation)
    (body : UpdateBody) (start stop : Instant)
    (h : checkTableAndSlot tables db r body start stop = some .slotConflict) :
    (overlappingReservationsExcept db (body.table.getD r.table) r._id start stop).length > 0 := by
  unfold checkTableAndSlot at h
  split_ifs at h
  dsimp only at h
  split at h
  · simp at h
  · split_ifs at h <;> first | assumption | simp at h

end Restaurant

namespace Restaurant

/-- C19. Self-exclusion in update.  For a stored reservation `r`, the availability query of
`updateReservation` never returns `r` itself, whatever table and interval it is asked for.  If
no stored reservation other than `r` is active on the effective table and overlaps the effective
interval, the block of lines 174-211 does not report a conflict and the response is not the slot
conflict, also when the new interval overlaps the stored interval of `r`; when moreover the
effective table is in the registry and seats the effective party, that block raises no error at
all. -/
theorem updateReservation_self_exclusion (now : Instant) (tables : List Table)
    (id : ObjectId) (body : UpdateBody) (db : Db) (r : Reservation)
    (hfind : Reservation.findById db id = some r) :
    (∀ (table : ObjectId) (start stop : Instant),
      r ∉ overlappingReservationsExcept db table r._id start stop) ∧
    ((∀ x ∈ db.reservations, x ≠ r →
        ¬ (x.table = body.table.getD r.table ∧ x.active ∧
          x.startTime < body.endTime.getD r.endTime ∧
          body.startTime.getD r.startTime < x.endTime)) →
      checkTableAndSlot tables db r body (body.startTime.getD r.startTime)
        (body.endTime.getD r.endTime) ≠ some .slotConflict ∧
      (updateReservation now tables id body db).2 ≠ .fail .slotConflict ∧
      (∀ t, Table.findById tables (body.table.getD r.table) = some t →
        (truthyNum body.numberOfGuests).getD r.numberOfGuests ≤ t.capacity →
        checkTableAndSlot tables db r body (body.startTime.getD r.startTime)
          (body.endTime.getD r.endTime) = none)) := by
  constructor
  · intro table start stop hmem
    simp only [overlappingReservationsExcept, List.mem_filter, Bool.and_eq_true, bne_iff_ne,
      ne_eq, not_true_eq_false, and_false, false_and] at hmem
  · intro hothers
    have hno : ¬ (overlappingReservationsExcept db (body.table.getD r.table) r._id
        (body.startTime.getD r.startTime) (body.endTime.getD r.endTime)).length > 0 := by
      rw [overlappingReservationsExcept_pos]
      rintro ⟨x, hx, htab, hid, hact, h1, h2⟩
      have hne : x ≠ r := fun hxr => hid (congrArg Reservation._id hxr)
      exact hothers x hx hne ⟨htab, hact, h1, h2⟩
    have hcheck : checkTableAndSlot tables db r body (body.startTime.getD r.startTime)
        (body.endTime.getD r.endTime) ≠ some .slotConflict :=
      fun h => hno (checkTableAndSlot_slotConflict tables db r body _ _ h)
    refine ⟨hcheck, fun h => ?_, fun t ht hcap => ?_⟩
    · exact hcheck (updateReservation_block_error now tables id body db r .slotConflict hfind
        (Or.inr (Or.inr rfl)) h)
    · unfold checkTableAndSlot
      split_ifs with hgiven
      · simp only [ht, gt_iff_lt, not_lt.mpr hcap, if_false, hno, ite_self]
      · rfl

/-- C19 (instance). Reservation 0 (10:00-11:00) is moved to 10:30-11:30 on its own table, which
overlaps its stored interval; the other reservation of the table is at 12:00-13:00, and the
update is stored. -/
theorem updateReservation_self_exclusion_witness :
    (updateReservation 900 sampleTables 0 ⟨some 1, some 1030, some 1130, none, none, none⟩
        ⟨[stored 0 1000 1100 "Pending", stored 1 1200 1300 "Pending"], 2⟩).2 ≠
      .fail .slotConflict ∧
    updateReservation 900 sampleTables 0 ⟨some 1, some 1030, some 1130, none, none, none⟩
        ⟨[stored 0 1000 1100 "Pending", stored 1 1200 1300 "Pending"], 2⟩ =
      (⟨[stored 0 1030 1130 "Pending", stored 1 1200 1300 "Pending"], 2⟩,
        .ok (stored 0 1030 1130 "Pending")) :=
  ⟨((updateReservation_self_exclusion 900 sampleTables 0
      ⟨some 1, some 1030, some 1130, none, none, none⟩
      ⟨[stored 0 1000 1100 "Pending", stored 1 1200 1300 "Pending"], 2⟩
      (stored 0 1000 1100 "Pending") (by decide)).2 (by decide)).2.1, by decide⟩

end Restaurant

namespace Restaurant

/-- C20. Capacity re-validation of update.  Let the reservation be stored, the interval checks
pass, and the body give a table and/or a party size (a party size of 0 counts as not given, by
`||`).  The effective table is the given one, else the stored one, and the effective party size
likewise.  When the effective table is not in the registry the response is the 404 table error;
otherwise the response is the 400 capacity error exactly when the effective party is larger than
the capacity of the effective table.  In both failures the collection is unchanged. -/
theorem updateReservation_capacity (now : Instant) (tables : List Table) (id : ObjectId)
    (body : UpdateBody) (db : Db) (r : Reservation)
    (hfind : Reservation.findById db id = some r)
    (hint : (body.startTime.isSome || body.endTime.isSome) = true →
      body.startTime.getD r.startTime < body.endTime.getD r.endTime)
    (hpast : (body.startTime.isSome || body.endTime.isSome) = true →
      body.startTime.getD r.startTime < now → r.status ≠ "Pending")
    (hgiven : (body.table.isSome || (truthyNum body.numberOfGuests).isSome) = true) :
    (Table.findById tables (body.table.getD r.table) = none →
      updateReservation now tables id body db = (db, .fail .tableNotFound) ∧
      Outcome.code (.fail .tableNotFound) = some 404) ∧
    (∀ t, Table.findById tables (body.table.getD r.table) = some t →
      ((updateReservation now tables id body db).2 = .fail .capacityExceeded ↔
        (truthyNum body.numberOfGuests).getD r.numberOfGuests > t.capacity) ∧
      ((truthyNum body.numberOfGuests).getD r.numberOfGuests > t.capacity →
        updateReservation now tables id body db = (db, .fail .capacityExceeded)) ∧
      (updateReservation now tables id body db).2 ≠ .fail .tableNotFound ∧
      Outcome.code (.fail .capacityExceeded) = some 400) := by
  have hshape := updateReservation_after_interval now tables id body db r hfind hint hpast
  constructor
  · intro hnone
    have hc : checkTableAndSlot tables db r body (body.startTime.getD r.startTime)
        (body.endTime.getD r.endTime) = some .tableNotFound := by
      simp only [checkTableAndSlot, hgiven, if_true, hnone]
    rw [hshape, hc]
    exact ⟨rfl, rfl⟩
  · intro t ht
    have hexc : (truthyNum body.numberOfGuests).getD r.numberOfGuests > t.capacity →
        updateReservation now tables id body db = (db, .fail .capacityExceeded) := by
      intro hgt
      have hc : checkTableAndSlot tables db r body (body.startTime.getD r.startTime)
          (body.endTime.getD r.endTime) = some .capacityExceeded := by
        simp only [checkTableAndSlot, hgiven, if_true, ht, hgt]
      rw [hshape, hc]
    refine ⟨⟨fun h => ?_, fun hgt => by rw [hexc hgt]⟩, hexc, fun h => ?_, rfl⟩
    · have hc := updateReservation_block_error now tables id body db r .capacityExceeded hfind
        (Or.inr (Or.inl rfl)) h
      by_contra hle
      simp only [checkTableAndSlot, hgiven, if_true, ht, hle, if_false] at hc
      split_ifs at hc
      simp at hc
    · have hc := updateReservation_block_error now tables id body db r .tableNotFound hfind
        (Or.inl rfl) h
      simp only [checkTableAndSlot, hgiven, if_true, ht] at hc
      split_ifs at hc <;> simp at hc

/-- C20 (instance). Raising the party of a reservation of the capacity-4 table to 6 is refused
with the capacity error and nothing is written. -/
theorem updateReservation_capacity_witness :
    updateReservation 900 sampleTables 0 ⟨none, none, none, some 6, none, none⟩
        ⟨[stored 0 1000 1100 "Pending"], 1⟩ =
      (⟨[stored 0 1000 1100 "Pending"], 1⟩, .fail .capacityExceeded) :=
  ((updateReservation_capacity 900 sampleTables 0 ⟨none, none, none, some 6, none, none⟩
    ⟨[stored 0 1000 1100 "Pending"], 1⟩ (stored 0 1000 1100 "Pending") (by decide)
    (by decide) (by decide) (by decide)).2 ⟨1, 1, 4, true, none, none⟩ (by decide)).2.1 (by decide)

end Restaurant

namespace Restaurant

/-! ## Update that gives only times -/

/-- The assignments of lines 213-218 are accepted by `save()` when the effective party is at
least 1, the stored status is recognised and the effective start is before the effective end. -/
theorem applyUpdate_ok (db : Db) (r : Reservation) (body : UpdateBody) (start stop : Instant)
    (hg : 1 ≤ (truthyNum body.numberOfGuests).getD r.numberOfGuests)
    (hst : r.status ∈ enumValues) (hlt : start < stop) :
    ∃ u, applyUpdate db r body start stop = (db.replace u, .ok u) ∧ u.validate = true ∧
      u._id = r._id ∧ u.user = r.user ∧ u.table = body.table.getD r.table ∧
      u.numberOfGuests = (truthyNum body.numberOfGuests).getD r.numberOfGuests ∧
      u.startTime = start ∧ u.endTime = stop := by
  unfold applyUpdate
  dsimp only
  split_ifs with hinc hv hv
  · exact ⟨_, rfl, hv, rfl, rfl, rfl, rfl, rfl, rfl⟩
  · exfalso
    apply hv
    obtain ⟨s, hs, hmem⟩ := (includesStatus_enumValues body.status).mp hinc
    rw [validate_iff]
    refine ⟨hg, ?_, hlt⟩
    simp only [hs, Option.getD_some]
    exact hmem
  · exact ⟨_, rfl, hv, rfl, rfl, rfl, rfl, rfl, rfl⟩
  · exfalso
    apply hv
    rw [validate_iff]
    exact ⟨hg, hst, hlt⟩

/-- C24. An update whose body gives `startTime` and/or `endTime` but neither a table nor a party
size makes no availability query and no capacity check.  Provided the effective start is before
the effective end, and is not before now when the stored status is `Pending` (the stored
document passing the schema, as every document written by `save()` does), it is answered 200 for
every table registry and every state of the other reservations, and the stored document gets
the effective start and end, keeping its id, owner, table and party size. -/
theorem updateReservation_times_only (now : Instant) (tables : List Table) (id : ObjectId)
    (body : UpdateBody) (db : Db) (r : Reservation)
    (hfind : Reservation.findById db id = some r) (hv : r.validate = true)
    (hgiven : (body.startTime.isSome || body.endTime.isSome) = true)
    (htable : body.table = none) (hguests : truthyNum body.numberOfGuests = none)
    (hlt : body.startTime.getD r.startTime < body.endTime.getD r.endTime)
    (hpast : r.status = "Pending" → now ≤ body.startTime.getD r.startTime) :
    checkTableAndSlot tables db r body (body.startTime.getD r.startTime)
      (body.endTime.getD r.endTime) = none ∧
    ∃ u, updateReservation now tables id body db = (db.replace u, .ok u) ∧
      (Outcome.ok u).code = some 200 ∧
      Reservation.findById (updateReservation now tables id body db).1 id = some u ∧
      u.startTime = body.startTime.getD r.startTime ∧
      u.endTime = body.endTime.getD r.endTime ∧
      u._id = r._id ∧ u.user = r.user ∧ u.table = r.table ∧
      u.numberOfGuests = r.numberOfGuests := by
  have _ := hgiven
  have hid : r._id = id := (Reservation.findById_mem hfind).2
  have hcheck : checkTableAndSlot tables db r body (body.startTime.getD r.startTime)
      (body.endTime.getD r.endTime) = none := by
    simp only [checkTableAndSlot, htable, hguests, Option.isSome_none, Bool.or_self,
      Bool.false_eq_true, if_false]
  have hshape := updateReservation_after_interval now tables id body db r hfind (fun _ => hlt)
    (fun _ hbefore hst => absurd (hpast hst) (not_le.mpr hbefore))
  have hvr := (validate_iff r).mp hv
  obtain ⟨u, hu, _, huid, huser, htab, hn, hs, he⟩ := applyUpdate_ok db r body
    (body.startTime.getD r.startTime) (body.endTime.getD r.endTime)
    (by rw [hguests]; exact hvr.1) hvr.2.1 hlt
  have heq : updateReservation now tables id body db = (db.replace u, .ok u) := by
    rw [hshape, hcheck]
    exact hu
  refine ⟨hcheck, u, heq, rfl, ?_, hs, he, huid, huser, ?_, ?_⟩
  · rw [heq]
    simp only [Reservation.findById, Db.replace, huid, hid]
    exact find?_map_replace db.reservations id r u (huid.trans hid) hfind
  · rw [htab, htable]; rfl
  · rw [hn, hguests]; rfl

/-- C24 (instance). Reservation 1 (12:00-13:00) is moved to 10:30-11:30 by a body that gives
only the two times, although the pending reservation 0 of the same table holds 10:00-11:00 and
the registry is empty. -/
theorem updateReservation_times_only_witness :
    ∃ u, updateReservation 900 [] 1 (timesOnly 1030 1130)
        ⟨[stored 0 1000 1100 "Pending", stored 1 1200 1300 "Pending"], 2⟩ =
      (Db.replace ⟨[stored 0 1000 1100 "Pending", stored 1 1200 1300 "Pending"], 2⟩ u, .ok u) ∧
      u.startTime = 1030 ∧ u.endTime = 1130 :=
  match (updateReservation_times_only 900 [] 1 (timesOnly 1030 1130)
    ⟨[stored 0 1000 1100 "Pending", stored 1 1200 1300 "Pending"], 2⟩
    (stored 1 1200 1300 "Pending") (by decide) (by decide) (by decide) rfl rfl (by decide)
    (by decide)).2 with
  | ⟨u, h, _, _, hs, he, _⟩ => ⟨u, h, hs, he⟩

end Restaurant

namespace Restaurant

/-! ## Interleaved create requests -/

/-- Running the two parts of the split handler one after the other on the same collection is
the handler `createReservation`. -/
theorem createReservation_eq_check_save (now : Instant) (user : ObjectId)
    (tables : List Table) (body : CreateBody) (db : Db) :
    createReservation now user tables body db =
      match createCheck now user tables body db with
      | .error e => (db, .fail e)
      | .ok d => createSave db d := by
  unfold createReservation createCheck
  split
  · split_ifs
    · rfl
    · rfl
    · split
      · rfl
      · dsimp only
        split_ifs
        · rfl
        · rfl
        · simp only [createSave, *, if_true]
        · simp only [createSave, *]
          rfl
  · rfl

/-- C21 (failing schedule). Two create requests for table 1, 10:00-11:00, on the empty
collection.  Served one after the other, the first is created and the second is refused with
the slot conflict.  When both overlap queries run before either `save()`, both requests are
answered 201 and the collection ends with two `Pending` reservations of table 1 on the same
interval. -/
theorem exec_interleaved_double_books :
    Sys.exec 900 sampleTables twoBookings [0, 0, 1, 1] =
      ⟨⟨[⟨0, 7, 1, 1000, 1100, 2, "Pending", none⟩], 1⟩,
        [.done (.created ⟨0, 7, 1, 1000, 1100, 2, "Pending", none⟩),
          .done (.fail .slotConflict)]⟩ ∧
    Sys.exec 900 sampleTables twoBookings [0, 1, 0, 1] =
      ⟨⟨[⟨0, 7, 1, 1000, 1100, 2, "Pending", none⟩,
          ⟨1, 8, 1, 1000, 1100, 2, "Pending", none⟩], 2⟩,
        [.done (.created ⟨0, 7, 1, 1000, 1100, 2, "Pending", none⟩),
          .done (.created ⟨1, 8, 1, 1000, 1100, 2, "Pending", none⟩)]⟩ ∧
    (⟨0, 7, 1, 1000, 1100, 2, "Pending", none⟩ : Reservation).overlaps
      ⟨1, 8, 1, 1000, 1100, 2, "Pending", none⟩ := by
  decide

end Restaurant

namespace Restaurant

/-! ## Table registry -/

theorem Table.findOne_none {db : TableDb} {n : Int} :
    Table.findOne db n = none ↔ ∀ t ∈ db.tables, t.tableNumber ≠ n := by
  simp [Table.findOne, List.find?_eq_none]

theorem Table.findOne_some {db : TableDb} {n : Int} {t : Table}
    (h : Table.findOne db n = some t) : t ∈ db.tables ∧ t.tableNumber = n := by
  refine ⟨List.mem_of_find?_eq_some h, ?_⟩
  have hp := List.find?_some h
  simpa using hp

theorem Table.findById_mem_registry {tables : List Table} {id : ObjectId} {t : Table}
    (h : Table.findById tables id = some t) : t ∈ tables :=
  List.mem_of_find?_eq_some h

/-- A create-table request either fails and writes nothing, or appends a table under the next
id whose number no stored table has. -/
theorem createTable_cases (body : TableBody) (db : TableDb) :
    (∃ e, createTable body db = (db, .fail e)) ∨
    (∃ t, createTable body db = (⟨db.tables ++ [t], db.fresh + 1⟩, .created t) ∧
      t._id = db.fresh ∧ ∀ x ∈ db.tables, x.tableNumber ≠ t.tableNumber) := by
  unfold createTable
  split
  · split
    · exact Or.inl ⟨_, rfl⟩
    · rename_i hnone
      dsimp only
      split_ifs
      · exact Or.inr ⟨_, rfl, rfl, Table.findOne_none.mp hnone⟩
      · exact Or.inl ⟨_, rfl⟩
  · exact Or.inl ⟨_, rfl⟩

/-- When lines 66-73 of `updateTable` do not throw, the table keeps its id and either keeps its
number or gets a number that the lookup did not find on a table with another id. -/
theorem renumber_ok (db : TableDb) (id : ObjectId) (table t : Table) (tn : Option Int)
    (h : renumber db id table tn = .ok t) :
    t._id = table._id ∧
    (t.tableNumber = table.tableNumber ∨
      (t.tableNumber ≠ table.tableNumber ∧
        (Table.findOne db t.tableNumber = none ∨
          ∃ x, Table.findOne db t.tableNumber = some x ∧ x._id = id))) := by
  unfold renumber at h
  split at h
  · rename_i n
    split_ifs at h with hne
    · split at h
      · rename_i x hx
        split_ifs at h with hid
        simp only [Except.ok.injEq] at h
        subst h
        exact ⟨rfl, Or.inr ⟨hne, Or.inr ⟨x, hx, not_not.mp hid⟩⟩⟩
      · rename_i hx
        simp only [Except.ok.injEq] at h
        subst h
        exact ⟨rfl, Or.inr ⟨hne, Or.inl hx⟩⟩
    · simp only [Except.ok.injEq] at h
      subst h
      exact ⟨rfl, Or.inl rfl⟩
  · simp only [Except.ok.injEq] at h
    subst h
    exact ⟨rfl, Or.inl rfl⟩

/-- An update-table request either fails and writes nothing, or writes back a table with the
same id whose number is the stored one or one that passed the duplicate check. -/
theorem updateTable_cases (id : ObjectId) (body : TableBody) (db : TableDb) :
    (∃ e, updateTable id body db = (db, .fail e)) ∨
    (∃ table u, Table.findById db.tables id = some table ∧
      updateTable id body db = (db.replace u, .ok u) ∧ u._id = table._id ∧
      (u.tableNumber = table.tableNumber ∨
        (u.tableNumber ≠ table.tableNumber ∧
          (Table.findOne db u.tableNumber = none ∨
            ∃ x, Table.findOne db u.tableNumber = some x ∧ x._id = id)))) := by
  cases hfind : Table.findById db.tables id with
  | none => exact Or.inl ⟨.notFound, by simp only [updateTable, hfind]⟩
  | some table =>
    simp only [updateTable, hfind]
    split
    · exact Or.inl ⟨_, rfl⟩
    · rename_i t ht
      obtain ⟨hid, hnum⟩ := renumber_ok db id table t body.tableNumber ht
      split_ifs
      · exact Or.inr ⟨table, _, rfl, rfl, hid, hnum⟩
      · exact Or.inl ⟨_, rfl⟩

end Restaurant

namespace Restaurant

theorem TableDb.Wf.replace_wf {db : TableDb} {table u : Table} (h : db.Wf)
    (hmem : table ∈ db.tables) (hid : u._id = table._id)
    (hnum : ∀ y ∈ db.tables, y._id ≠ table._id → y.tableNumber ≠ u.tableNumber) :
    (db.replace u).Wf := by
  obtain ⟨hids, hlt, hnums⟩ := h
  have hmapid : (db.tables.map (fun x => if x._id = u._id then u else x)).map Table._id =
      db.tables.map Table._id := by
    rw [List.map_map]
    refine List.map_congr_left (fun x _ => ?_)
    simp only [Function.comp]
    split_ifs with hx
    · exact hx.symm
    · rfl
  refine ⟨?_, ?_, ?_⟩
  · simp only [TableDb.replace, hmapid]
    exact hids
  · intro x hx
    simp only [TableDb.replace, List.mem_map] at hx
    obtain ⟨y, hy, hxy⟩ := hx
    split_ifs at hxy
    · rw [← hxy, hid]; exact hlt table hmem
    · rw [← hxy]; exact hlt y hy
  · simp only [TableDb.replace, List.map_map]
    refine List.Nodup.map_on ?_ (List.Nodup.of_map _ hids)
    intro x hx y hy hxy
    simp only [Function.comp, hid] at hxy
    by_cases hxid : x._id = table._id
    · by_cases hyid : y._id = table._id
      · exact List.inj_on_of_nodup_map hids hx hy (hxid.trans hyid.symm)
      · rw [if_pos hxid, if_neg hyid] at hxy
        exact absurd hxy.symm (hnum y hy hyid)
    · by_cases hyid : y._id = table._id
      · rw [if_neg hxid, if_pos hyid] at hxy
        exact absurd hxy (hnum x hx hxid)
      · rw [if_neg hxid, if_neg hyid] at hxy
        exact List.inj_on_of_nodup_map hnums hx hy hxy

theorem handleTable_wf (db : TableDb) (op : TableOp) (h : db.Wf) : (handleTable db op).1.Wf := by
  cases op with
  | create body =>
    rcases createTable_cases body db with ⟨e, he⟩ | ⟨t, ht, hid, hnew⟩
    · simp only [handleTable, he]; exact h
    · simp only [handleTable, ht]
      obtain ⟨hids, hlt, hnums⟩ := h
      refine ⟨?_, ?_, ?_⟩
      · simp only [List.map_append, List.map_cons, List.map_nil]
        refine List.Nodup.append hids (List.nodup_singleton _) ?_
        rw [List.disjoint_singleton, hid]
        intro hmem
        obtain ⟨y, hy, hyid⟩ := List.mem_map.mp hmem
        exact absurd hyid (Nat.ne_of_lt (hlt y hy))
      · intro x hx
        simp only [List.mem_append, List.mem_singleton] at hx
        rcases hx with hx | hx
        · exact Nat.lt_succ_of_lt (hlt x hx)
        · rw [hx, hid]; exact Nat.lt_succ_self _
      · simp only [List.map_append, List.map_cons, List.map_nil]
        refine List.Nodup.append hnums (List.nodup_singleton _) ?_
        rw [List.disjoint_singleton]
        intro hmem
        obtain ⟨y, hy, hyn⟩ := List.mem_map.mp hmem
        exact hnew y hy hyn
  | update id body =>
    rcases updateTable_cases id body db with ⟨e, he⟩ | ⟨table, u, hfind, hu, hid, hnum⟩
    · simp only [handleTable, he]; exact h
    · simp only [handleTable, hu]
      have hmem := Table.findById_mem_registry hfind
      have htid : table._id = id := Table.findById_id hfind
      refine h.replace_wf hmem hid ?_
      intro y hy hyid hyn
      rcases hnum with hsame | ⟨hne, hnone | ⟨x, hx, hxid⟩⟩
      · rw [hsame] at hyn
        exact hyid (congrArg Table._id (List.inj_on_of_nodup_map h.2.2 hy hmem hyn))
      · exact Table.findOne_none.mp hnone y hy hyn
      · obtain ⟨hxmem, hxn⟩ := Table.findOne_some hx
        have hxt : x = table := List.inj_on_of_nodup_map h.1 hxmem hmem (hxid.trans htid.symm)
        rw [hxt] at hxn
        exact hne hxn.symm
  | delete id =>
    simp only [handleTable, deleteTable]
    split
    · obtain ⟨hids, hlt, hnums⟩ := h
      refine ⟨?_, ?_, ?_⟩
      · exact List.Nodup.sublist (List.Sublist.map _ (List.filter_sublist _)) hids
      · intro x hx
        simp only [List.mem_filter] at hx
        exact hlt x hx.1
      · exact List.Nodup.sublist (List.Sublist.map _ (List.filter_sublist _)) hnums
    · exact h

theorem runTablesFrom_wf (ops : List TableOp) (db : TableDb) (h : db.Wf) :
    (runTablesFrom db ops).Wf := by
  induction ops generalizing db with
  | nil => exact h
  | cons op ops ih => exact ih _ (handleTable_wf db op h)

theorem runTables_wf (ops : List TableOp) : (runTables ops).Wf :=
  runTablesFrom_wf ops TableDb.empty
    ⟨List.nodup_nil, ⟨fun _ hx => absurd hx (List.not_mem_nil _), List.nodup_nil⟩⟩

end Restaurant

namespace Restaurant

/-- C22. Table numbers stay unique.  After any finite sequence of create, update and delete
requests served from the empty registry no two stored tables have the same table number.  A
create request whose table number is already stored is answered 400 (with the duplicate
message when number and capacity are both given and non-zero) and an update request, on a
registry with distinct numbers, whose table number belongs to a table with another id is
answered 400; in both cases the registry is unchanged. -/
theorem tableNumber_unique :
    (∀ ops : List TableOp, ((runTables ops).tables.map Table.tableNumber).Nodup ∧
      ∀ a ∈ (runTables ops).tables, ∀ b ∈ (runTables ops).tables,
        a.tableNumber = b.tableNumber → a = b) ∧
    (∀ (body : TableBody) (db : TableDb) (n : Int), body.tableNumber = some n →
      (∃ t ∈ db.tables, t.tableNumber = n) →
      (createTable body db).1 = db ∧
      ∃ e, (createTable body db).2 = .fail e ∧ e.code = some 400 ∧
        (n ≠ 0 → truthyNum body.capacity ≠ none → e = .numberExists)) ∧
    (∀ (id : ObjectId) (body : TableBody) (db : TableDb) (n : Int) (table other : Table),
      (db.tables.map Table.tableNumber).Nodup → Table.findById db.tables id = some table →
      body.tableNumber = some n → other ∈ db.tables → other.tableNumber = n →
      other._id ≠ id →
      updateTable id body db = (db, .fail .numberExistsOther) ∧
      TableErr.code .numberExistsOther = some 400) := by
  refine ⟨fun ops => ⟨(runTables_wf ops).2.2, fun a ha b hb hab =>
    List.inj_on_of_nodup_map (runTables_wf ops).2.2 ha hb hab⟩, ?_, ?_⟩
  · intro body db n hn hex
    have hfound : ∃ x, Table.findOne db n = some x := by
      cases hf : Table.findOne db n with
      | none =>
        obtain ⟨t, ht, htn⟩ := hex
        exact absurd htn (Table.findOne_none.mp hf t ht)
      | some x => exact ⟨x, rfl⟩
    obtain ⟨x, hx⟩ := hfound
    by_cases hn0 : n = 0
    · have hc : createTable body db = (db, .fail .missingFields) := by
        simp [createTable, hn, hn0, truthyNum]
      rw [hc]
      exact ⟨rfl, .missingFields, rfl, rfl, fun h => absurd hn0 h⟩
    · have htn : truthyNum body.tableNumber = some n := by
        simp only [hn, truthyNum, hn0, if_false]
      cases hcap : truthyNum body.capacity with
      | none =>
        have hc : createTable body db = (db, .fail .missingFields) := by
          simp only [createTable, htn, hcap]
        rw [hc]
        exact ⟨rfl, .missingFields, rfl, rfl, fun _ h => absurd rfl h⟩
      | some c =>
        have hc : createTable body db = (db, .fail .numberExists) := by
          simp only [createTable, htn, hcap, hx]
        rw [hc]
        exact ⟨rfl, .numberExists, rfl, rfl, fun _ _ => rfl⟩
  · intro id body db n table other hnums hfind hn hother hon hoid
    refine ⟨?_, rfl⟩
    have hmem := Table.findById_mem_registry hfind
    have htid : table._id = id := Table.findById_id hfind
    have hne : n ≠ table.tableNumber := by
      intro heq
      have : other = table := List.inj_on_of_nodup_map hnums hother hmem (hon.trans heq)
      exact hoid (this ▸ htid)
    cases hf : Table.findOne db n with
    | none => exact absurd hon (Table.findOne_none.mp hf other hother)
    | some x =>
      obtain ⟨hxmem, hxn⟩ := Table.findOne_some hf
      have hxo : x = other := List.inj_on_of_nodup_map hnums hxmem hother (hxn.trans hon.symm)
      have hxid : x._id ≠ id := by rw [hxo]; exact hoid
      simp only [updateTable, hfind, renumber, hn, ne_eq, hne, not_false_eq_true, if_true, hf,
        hxid]

/-- C22 (instance). With tables 1 and 2 stored, renumbering table 2 to number 1 is refused and
the registry stays as it was; after a run that tries it, the numbers are still distinct. -/
theorem tableNumber_unique_witness :
    updateTable 1 (numberOnly 1) ⟨[⟨0, 1, 4, true, none, none⟩, ⟨1, 2, 6, true, none, none⟩], 2⟩ =
      (⟨[⟨0, 1, 4, true, none, none⟩, ⟨1, 2, 6, true, none, none⟩], 2⟩,
        .fail .numberExistsOther) ∧
    ((runTables [.create (tableBody 1 4), .create (tableBody 2 6),
      .update 1 (numberOnly 1)]).tables.map Table.tableNumber).Nodup :=
  ⟨(tableNumber_unique.2.2 1 (numberOnly 1)
      ⟨[⟨0, 1, 4, true, none, none⟩, ⟨1, 2, 6, true, none, none⟩], 2⟩ 1
      ⟨1, 2, 6, true, none, none⟩ ⟨0, 1, 4, true, none, none⟩ (by decide) (by decide) rfl
      (by decide) rfl (by decide)).1,
    (tableNumber_unique.1 [.create (tableBody 1 4), .create (tableBody 2 6),
      .update 1 (numberOnly 1)]).1⟩

end Restaurant

namespace Restaurant

/-! ## Orders -/

/-- The loop of `createOrder` throws only the 404 for an item that names no menu item or the
400 for an item whose menu item is not available. -/
theorem validateItems_error {Num : Type} (A : Arith Num) (menu : List (MenuItem Num))
    (items : List (OrderItemBody Num)) (total : Num) (acc : List (OrderItem Num)) (e : OrderErr) (h : validateItems A menu items total acc = .error e) :
    (e = .menuItemNotFound ∧ ∃ item ∈ items, MenuItem.findById menu item.menuItem = none) ∨
    (e = .notAvailable ∧ ∃ item ∈ items, ∃ m,
      MenuItem.findById menu item.menuItem = some m ∧ m.isAvailable = false) := by
  induction items generalizing total acc with
  | nil => simp [validateItems] at h
  | cons item rest ih =>
    cases hm : MenuItem.findById menu item.menuItem with
    | none =>
      simp only [validateItems, hm, Except.error.injEq] at h
      exact Or.inl ⟨h.symm, item, List.mem_cons_self _ _, hm⟩
    | some m =>
      cases hav : m.isAvailable with
      | false =>
        simp only [validateItems, hm, hav, Bool.not_false, if_true, Except.error.injEq] at h
        exact Or.inr ⟨h.symm, item, List.mem_cons_self _ _, m, hm, hav⟩
      | true =>
        simp only [validateItems, hm, hav, Bool.not_true, Bool.false_eq_true, if_false] at h
        rcases ih _ _ h with ⟨he, i, hi, hnone⟩ | ⟨he, i, hi, hbad⟩
        · exact Or.inl ⟨he, i, List.mem_cons_of_mem _ hi, hnone⟩
        · exact Or.inr ⟨he, i, List.mem_cons_of_mem _ hi, hbad⟩

/-- The loop of `createOrder` throws as soon as one item names no menu item or an unavailable
one. -/
theorem validateItems_bad {Num : Type} (A : Arith Num) (menu : List (MenuItem Num))
    (items : List (OrderItemBody Num)) (total : Num) (acc : List (OrderItem Num))
    (h : ∃ item ∈ items, ∀ m, MenuItem.findById menu item.menuItem = some m →
      m.isAvailable = false) :
    ∃ e, validateItems A menu items total acc = .error e := by
  induction items generalizing total acc with
  | nil =>
    obtain ⟨i, hi, _⟩ := h
    cases hi
  | cons item rest ih =>
    cases hm : MenuItem.findById menu item.menuItem with
    | none => exact ⟨.menuItemNotFound, by simp only [validateItems, hm]⟩
    | some m =>
      cases hav : m.isAvailable with
      | false => exact ⟨.notAvailable, by simp only [validateItems, hm, hav, Bool.not_false, if_true]⟩
      | true =>
        simp only [validateItems, hm, hav, Bool.not_true, Bool.false_eq_true, if_false]
        apply ih
        obtain ⟨i, hi, hbad⟩ := h
        rcases List.mem_cons.mp hi with heq | hmem
        · subst heq
          have := hbad m hm
          rw [hav] at this
          cases this
        · exact ⟨i, hmem, hbad⟩

/-- The loop of `createOrder` reads only the menu item id and the quantity of each item. -/
theorem validateItems_congr {Num : Type} (A : Arith Num) (menu : List (MenuItem Num))
    (items items' : List (OrderItemBody Num)) (total : Num) (acc : List (OrderItem Num))
    (h : items'.map (fun i => (i.menuItem, i.qty)) = items.map (fun i => (i.menuItem, i.qty))) :
    validateItems A menu items' total acc = validateItems A menu items total acc := by
  induction items generalizing items' total acc with
  | nil =>
    cases items' with
    | nil => rfl
    | cons a l => simp at h
  | cons item rest ih =>
    cases items' with
    | nil => simp at h
    | cons a l =>
      simp only [List.map_cons, List.cons.injEq, Prod.mk.injEq] at h
      obtain ⟨⟨hid, hq⟩, hl⟩ := h
      simp only [validateItems, hid, hq]
      split
      · rfl
      · split_ifs
        · rfl
        · exact ih l _ _ hl

end Restaurant

namespace Restaurant

/-- C23 (failing input). Two soups at 4 and one pie at 7 make an items total of 15.  With the
delivery fee given as the number 3 the order is stored with `totalPrice` 18, the items total plus
the fee.  With the delivery fee given as the string `"3"` the request is answered 201 just the
same and the order is stored with `deliveryFee` 3 but `totalPrice` 153: line 49 concatenates
`"15"` and `"3"` instead of adding. -/
theorem createOrder_string_fee_concatenates :
    itemsTotal intArith wholeMenu soupAndPie = 15 ∧
    createOrder intArith 7 wholeMenu (orderWithFee (.num 3)) OrderDb.empty =
      (⟨[⟨0, 7, [⟨"Soup", 2, "soup.jpg", 4, 1⟩, ⟨"Pie", 1, "pie.jpg", 7, 2⟩], 18, "Pending",
          some "Card", false, none, ⟨none, none, none, none⟩, 3, false, none⟩], 1⟩,
        .created ⟨0, 7, [⟨"Soup", 2, "soup.jpg", 4, 1⟩, ⟨"Pie", 1, "pie.jpg", 7, 2⟩], 18,
          "Pending", some "Card", false, none, ⟨none, none, none, none⟩, 3, false, none⟩) ∧
    createOrder intArith 7 wholeMenu (orderWithFee (.str "3")) OrderDb.empty =
      (⟨[⟨0, 7, [⟨"Soup", 2, "soup.jpg", 4, 1⟩, ⟨"Pie", 1, "pie.jpg", 7, 2⟩], 153, "Pending",
          some "Card", false, none, ⟨none, none, none, none⟩, 3, false, none⟩], 1⟩,
        .created ⟨0, 7, [⟨"Soup", 2, "soup.jpg", 4, 1⟩, ⟨"Pie", 1, "pie.jpg", 7, 2⟩], 153,
          "Pending", some "Card", false, none, ⟨none, none, none, none⟩, 3, false, none⟩) ∧
    intArith.add (itemsTotal intArith wholeMenu soupAndPie) 3 ≠ 153 := by
  decide

theorem setOrderStatus_frame {Num : Type} (o : Order Num) (status : Option String) :
    (setOrderStatus o status)._id = o._id ∧
    (setOrderStatus o status).paymentMethod = o.paymentMethod ∧
    (setOrderStatus o status).orderItems = o.orderItems ∧
    (setOrderStatus o status).isPaid = o.isPaid ∧
    (setOrderStatus o status).paidAt = o.paidAt ∧
    (setOrderStatus o status).isDelivered = o.isDelivered ∧
    (setOrderStatus o status).deliveredAt = o.deliveredAt ∧
    (o.status ∈ orderStatuses → (setOrderStatus o status).status ∈ orderStatuses) ∧
    ((∀ s, status = some s → s ∉ orderStatuses) → (setOrderStatus o status).status = o.status) := by
  unfold setOrderStatus
  split_ifs with hinc
  · obtain ⟨s, hs, hmem⟩ := (includesStatus_iff orderStatuses (by decide) status).mp hinc
    refine ⟨rfl, rfl, rfl, rfl, rfl, rfl, rfl, fun _ => ?_, fun hbad => ?_⟩
    · simp only [hs, Option.getD_some]
      exact hmem
    · exact absurd hmem (hbad s hs)
  · exact ⟨rfl, rfl, rfl, rfl, rfl, rfl, rfl, fun h => h, fun _ => rfl⟩

theorem setPaid_frame {Num : Type} (now : Instant) (o : Order Num) (f : JsFlag) :
    (setPaid now o f)._id = o._id ∧ (setPaid now o f).paymentMethod = o.paymentMethod ∧
    (setPaid now o f).orderItems = o.orderItems ∧ (setPaid now o f).status = o.status ∧
    (setPaid now o f).isDelivered = o.isDelivered ∧
    (setPaid now o f).deliveredAt = o.deliveredAt ∧
    ((o.paidAt.isSome = true ↔ o.isPaid = true) →
      ((setPaid now o f).paidAt.isSome = true ↔ (setPaid now o f).isPaid = true)) ∧
    ((f = .undefined ∨ f = .other ∨ f = .bool o.isPaid) →
      (setPaid now o f).isPaid = o.isPaid ∧ (setPaid now o f).paidAt = o.paidAt) := by
  cases f with
  | undefined => exact ⟨rfl, rfl, rfl, rfl, rfl, rfl, fun h => h, fun _ => ⟨rfl, rfl⟩⟩
  | other => exact ⟨rfl, rfl, rfl, rfl, rfl, rfl, fun h => h, fun _ => ⟨rfl, rfl⟩⟩
  | bool b =>
    by_cases heq : o.isPaid = b
    · have hset : setPaid now o (.bool b) = o := by
        simp only [setPaid, ne_eq, heq, not_true_eq_false, if_false]
      rw [hset]
      exact ⟨rfl, rfl, rfl, rfl, rfl, rfl, fun h => h, fun _ => ⟨rfl, rfl⟩⟩
    · have hset : setPaid now o (.bool b) =
          { o with isPaid := b, paidAt := if b then some now else none } := by
        simp only [setPaid, ne_eq, heq, not_false_eq_true, if_true]
      rw [hset]
      refine ⟨rfl, rfl, rfl, rfl, rfl, rfl, fun _ => ?_, fun h => ?_⟩
      · cases b <;> simp
      · rcases h with h | h | h
        · cases h
        · cases h
        · simp only [JsFlag.bool.injEq] at h
          exact absurd h.symm heq

theorem setDelivered_frame {Num : Type} (now : Instant) (o : Order Num) (f : JsFlag) :
    (setDelivered now o f)._id = o._id ∧
    (setDelivered now o f).paymentMethod = o.paymentMethod ∧
    (setDelivered now o f).orderItems = o.orderItems ∧
    (setDelivered now o f).status = o.status ∧
    (setDelivered now o f).isPaid = o.isPaid ∧ (setDelivered now o f).paidAt = o.paidAt ∧
    ((o.deliveredAt.isSome = true ↔ o.isDelivered = true) →
      ((setDelivered now o f).deliveredAt.isSome = true ↔
        (setDelivered now o f).isDelivered = true)) ∧
    ((f = .undefined ∨ f = .other ∨ f = .bool o.isDelivered) →
      (setDelivered now o f).isDelivered = o.isDelivered ∧
      (setDelivered now o f).deliveredAt = o.deliveredAt) := by
  cases f with
  | undefined => exact ⟨rfl, rfl, rfl, rfl, rfl, rfl, fun h => h, fun _ => ⟨rfl, rfl⟩⟩
  | other => exact ⟨rfl, rfl, rfl, rfl, rfl, rfl, fun h => h, fun _ => ⟨rfl, rfl⟩⟩
  | bool b =>
    by_cases heq : o.isDelivered = b
    · have hset : setDelivered now o (.bool b) = o := by
        simp only [setDelivered, ne_eq, heq, not_true_eq_false, if_false]
      rw [hset]
      exact ⟨rfl, rfl, rfl, rfl, rfl, rfl, fun h => h, fun _ => ⟨rfl, rfl⟩⟩
    · have hset : setDelivered now o (.bool b) =
          { o with isDelivered := b, deliveredAt := if b then some now else none } := by
        simp only [setDelivered, ne_eq, heq, not_false_eq_true, if_true]
      rw [hset]
      refine ⟨rfl, rfl, rfl, rfl, rfl, rfl, fun _ => ?_, fun h => ?_⟩
      · cases b <;> simp
      · rcases h with h | h | h
        · cases h
        · cases h
        · simp only [JsFlag.bool.injEq] at h
          exact absurd h.symm heq

end Restaurant

namespace Restaurant

/-- A create-order request either fails and writes nothing, or appends a schema-valid order that
is neither paid nor delivered and has no payment or delivery time. -/
theorem createOrder_cases {Num : Type} (A : Arith Num) (user : ObjectId)
    (menu : List (MenuItem Num)) (body : OrderBody Num) (db : OrderDb Num) :
    (∃ e, createOrder A user menu body db = (db, .fail e)) ∨
    (∃ o, createOrder A user menu body db = (⟨db.orders ++ [o], db.fresh + 1⟩, .created o) ∧
      o.validate = true ∧ o.isPaid = false ∧ o.paidAt = none ∧ o.isDelivered = false ∧
      o.deliveredAt = none) := by
  unfold createOrder
  split
  · exact Or.inl ⟨_, rfl⟩
  · exact Or.inl ⟨_, rfl⟩
  · split
    · exact Or.inl ⟨_, rfl⟩
    · split
      · dsimp only
        split_ifs with hv
        · exact Or.inr ⟨_, rfl, hv, rfl, rfl, rfl, rfl⟩
        · exact Or.inl ⟨_, rfl⟩
      · exact Or.inl ⟨_, rfl⟩

/-- The order written back by `updateOrderStatus` passes the schema when the loaded one does. -/
theorem updateOrderStatus_validate {Num : Type} (now : Instant) (o : Order Num)
    (body : OrderStatusBody) (hv : o.validate = true) :
    (setDelivered now (setPaid now (setOrderStatus o body.status) body.isPaid)
      body.isDelivered).validate = true := by
  obtain ⟨_, a2, a3, _, _, _, _, a8, _⟩ := setOrderStatus_frame o body.status
  obtain ⟨_, b2, b3, b4, _, _, _, _⟩ := setPaid_frame now (setOrderStatus o body.status) body.isPaid
  obtain ⟨_, c2, c3, c4, _, _, _, _⟩ := setDelivered_frame now
    (setPaid now (setOrderStatus o body.status) body.isPaid) body.isDelivered
  simp only [Order.validate, Bool.and_eq_true, contains_iff] at hv ⊢
  rw [c2, b2, a2, c3, b3, a3, c4, b4]
  exact ⟨⟨hv.1.1, a8 hv.1.2⟩, hv.2⟩

/-- The order written back by `updateOrderStatus` has its timestamps in step with its flags when
the loaded one has. -/
theorem updateOrderStatus_stamped {Num : Type} (now : Instant) (o : Order Num)
    (body : OrderStatusBody) (hs : o.Stamped) :
    (setDelivered now (setPaid now (setOrderStatus o body.status) body.isPaid)
      body.isDelivered).Stamped := by
  obtain ⟨_, _, _, a4, a5, a6, a7, _, _⟩ := setOrderStatus_frame o body.status
  obtain ⟨_, _, _, _, b5, b6, b7, _⟩ := setPaid_frame now (setOrderStatus o body.status) body.isPaid
  obtain ⟨_, _, _, _, c5, c6, c7, _⟩ := setDelivered_frame now
    (setPaid now (setOrderStatus o body.status) body.isPaid) body.isDelivered
  constructor
  · rw [c5, c6]
    apply b7
    rw [a4, a5]
    exact hs.1
  · apply c7
    rw [b5, b6, a6, a7]
    exact hs.2

theorem handleOrder_inv {Num : Type} (A : Arith Num) (menu : List (MenuItem Num)) (db : OrderDb Num)
    (op : OrderOp Num)
    (h : ∀ o ∈ db.orders, o.Stamped ∧ o.validate = true) :
    ∀ o ∈ (handleOrder A menu db op).1.orders, o.Stamped ∧ o.validate = true := by
  cases op with
  | create user body =>
    rcases createOrder_cases A user menu body db with ⟨e, he⟩ | ⟨n, hn, hv, h1, h2, h3, h4⟩
    · simp only [handleOrder, he]; exact h
    · simp only [handleOrder, hn]
      intro o ho
      simp only [List.mem_append, List.mem_singleton] at ho
      rcases ho with ho | ho
      · exact h o ho
      · subst ho
        refine ⟨⟨?_, ?_⟩, hv⟩
        · simp [h1, h2]
        · simp [h3, h4]
  | setStatus now id body =>
    simp only [handleOrder, updateOrderStatus]
    split
    · rename_i order hfind
      have hmem : order ∈ db.orders := List.mem_of_find?_eq_some hfind
      split_ifs with hv
      · intro o ho
        simp only [OrderDb.replace, List.mem_map] at ho
        obtain ⟨x, hx, hxo⟩ := ho
        split_ifs at hxo
        · rw [← hxo]
          exact ⟨updateOrderStatus_stamped now order body (h order hmem).1, hv⟩
        · rw [← hxo]
          exact h x hx
      · exact h
    · exact h

theorem runOrdersFrom_inv {Num : Type} (A : Arith Num) (menu : List (MenuItem Num))
    (ops : List (OrderOp Num)) (db : OrderDb Num)
    (h : ∀ o ∈ db.orders, o.Stamped ∧ o.validate = true) :
    ∀ o ∈ (runOrdersFrom A menu db ops).orders, o.Stamped ∧ o.validate = true := by
  induction ops generalizing db with
  | nil => exact h
  | cons op ops ih => exact ih _ (handleOrder_inv A menu db op h)

/-- C25. Payment and delivery timestamps track their flags.  After any finite sequence of
create-order and update-order-status requests served from the empty collection, whatever the
arithmetic of the numbers, every stored order has `paidAt` set exactly when `isPaid` is true and `deliveredAt` set exactly when
`isDelivered` is true.  An update-order-status request on a stored order (which passes the
schema, as every saved order does) is answered 200; when its `isPaid` is absent, not a boolean
or equal to the stored value, `isPaid` and `paidAt` stay as stored, and likewise for
`isDelivered` and `deliveredAt`; and when its status is not a value of the status enum the
stored status stays as it was. -/
theorem updateOrderStatus_flags :
    (∀ (Num : Type) (A : Arith Num) (menu : List (MenuItem Num)) (ops : List (OrderOp Num)),
      ∀ o ∈ (runOrders A menu ops).orders,
        (o.paidAt.isSome = true ↔ o.isPaid = true) ∧
        (o.deliveredAt.isSome = true ↔ o.isDelivered = true)) ∧
    (∀ (Num : Type) (now : Instant) (id : ObjectId) (body : OrderStatusBody) (db : OrderDb Num)
      (o : Order Num), Order.findById db id = some o → o.validate = true →
      ∃ u, updateOrderStatus now id body db = (db.replace u, .ok u) ∧
        (OrderOutcome.ok u).code = some 200 ∧ u._id = o._id ∧
        ((body.isPaid = .undefined ∨ body.isPaid = .other ∨ body.isPaid = .bool o.isPaid) →
          u.isPaid = o.isPaid ∧ u.paidAt = o.paidAt) ∧
        ((body.isDelivered = .undefined ∨ body.isDelivered = .other ∨
            body.isDelivered = .bool o.isDelivered) →
          u.isDelivered = o.isDelivered ∧ u.deliveredAt = o.deliveredAt) ∧
        ((∀ s, body.status = some s → s ∉ orderStatuses) → u.status = o.status)) := by
  constructor
  · intro Num A menu ops o ho
    exact (runOrdersFrom_inv A menu ops OrderDb.empty
      (fun _ hx => absurd hx (List.not_mem_nil _)) o ho).1
  · intro Num now id body db o hfind hv
    have hvu := updateOrderStatus_validate now o body hv
    obtain ⟨a1, _, _, a4, a5, a6, a7, _, a9⟩ := setOrderStatus_frame o body.status
    obtain ⟨b1, _, _, b4, b5, b6, _, b8⟩ :=
      setPaid_frame now (setOrderStatus o body.status) body.isPaid
    obtain ⟨c1, _, _, c4, c5, c6, _, c8⟩ := setDelivered_frame now
      (setPaid now (setOrderStatus o body.status) body.isPaid) body.isDelivered
    refine ⟨setDelivered now (setPaid now (setOrderStatus o body.status) body.isPaid)
      body.isDelivered, ?_, rfl, ?_, ?_, ?_, ?_⟩
    · simp only [updateOrderStatus, hfind]
      rw [if_pos hvu]
    · rw [c1, b1, a1]
    · intro hp
      rw [c5, c6]
      rw [← a4] at hp
      obtain ⟨h1, h2⟩ := b8 hp
      rw [h1, h2, a4, a5]
      exact ⟨rfl, rfl⟩
    · intro hd
      rw [← a6, ← b5] at hd
      obtain ⟨h1, h2⟩ := c8 hd
      rw [h1, h2, b5, b6, a6, a7]
      exact ⟨rfl, rfl⟩
    · intro hbad
      rw [c4, b4]
      exact a9 hbad

end Restaurant

namespace Restaurant

/-- C25 (instance). A request with status `Bogus`, a non-boolean `isPaid` and `isDelivered`
true on the unpaid, undelivered stored order is answered 200; status, `isPaid` and `paidAt`
stay as stored. -/
theorem updateOrderStatus_flags_witness :
    ∃ u, updateOrderStatus 5 0 ⟨some "Bogus", .other, .bool true⟩ ⟨[storedOrder], 1⟩ =
        (OrderDb.replace ⟨[storedOrder], 1⟩ u, .ok u) ∧
      u.status = "Pending" ∧ u.isPaid = false ∧ u.paidAt = none :=
  match updateOrderStatus_flags.2 Int 5 0 ⟨some "Bogus", .other, .bool true⟩
    ⟨[storedOrder], 1⟩ storedOrder rfl (by decide) with
  | ⟨u, h, _, _, hp, _, hs⟩ =>
    ⟨u, h, hs (fun s hs' => by cases hs'; decide), (hp (Or.inr (Or.inl rfl))).1,
      (hp (Or.inr (Or.inl rfl))).2⟩

end Restaurant
